import Mathlib

/-!
Verification model of the DocSpotlight retrieval-and-response engine
(`backend_api.py`): question routing, per-document vector indexing and
nearest-neighbor retrieval, multi-document collections, hybrid response
synthesis, conversation memory, response caching and citation metadata.

Python dictionaries holding the module-level stores are modelled either as
functions `String → Option _` (pure lookup stores) or as insertion-ordered
association lists (the response cache, whose eviction sweep sorts entries by
timestamp).  Floating-point quantities (confidence scores, timestamps,
vector components, distances) are modelled as rationals.  The `hashlib`
digests used by the source (`md5` for cache keys and collection ids,
`sha256` for the deterministic fallback embedder) are implemented in full
below so that concrete digests can be computed inside proofs.
-/

/-! ## Small string utilities mirroring the Python `str` methods used -/

/-- Python `str.lower()` restricted to ASCII, which is all the source relies
on for its pattern matching (`Char.toLower` lowers exactly `A`–`Z`). -/
def strLower (s : String) : String := ⟨s.data.map Char.toLower⟩

/-- Python `str.upper()` restricted to ASCII. -/
def strUpper (s : String) : String := ⟨s.data.map Char.toUpper⟩

/-- Python `str.strip()`: remove leading and trailing whitespace. -/
def strTrim (s : String) : String :=
  ⟨(s.data.dropWhile Char.isWhitespace).reverse.dropWhile Char.isWhitespace |>.reverse⟩

/-- Python `needle in hay` on strings: substring containment. -/
def strContains (hay needle : String) : Bool :=
  hay.data.tails.any fun t => needle.data.isPrefixOf t

/-- Python `s.startswith(p)`. -/
def strStarts (s p : String) : Bool := p.data.isPrefixOf s.data

/-- Replacement of every non-overlapping occurrence of a non-empty pattern,
as Python `str.replace`.  The fuel argument (instantiated with the list
length, an upper bound on the number of scanning steps once the pattern is
non-empty) keeps the recursion structural so that it reduces in the kernel. -/
def replaceChars (pat rep : List Char) : Nat → List Char → List Char
  | _, [] => []
  | 0, l => l
  | fuel + 1, c :: rest =>
    if pat.isPrefixOf (c :: rest) then
      rep ++ replaceChars pat rep fuel ((c :: rest).drop pat.length)
    else
      c :: replaceChars pat rep fuel rest

/-- Python `s.replace(pat, rep)`; an empty pattern returns the string
unchanged (the source only ever replaces `"_"`). -/
def strReplace (s pat rep : String) : String :=
  if pat.data = [] then s else ⟨replaceChars pat.data rep.data s.data.length s.data⟩

/-! ## UTF-8 bytes of a string (Python `str.encode("utf-8")`) -/

/-- UTF-8 encoding of a single code point, as byte values. -/
def charUtf8 (c : Char) : List Nat :=
  let n := c.toNat
  if n < 0x80 then [n]
  else if n < 0x800 then [0xC0 + n / 64, 0x80 + n % 64]
  else if n < 0x10000 then
    [0xE0 + n / 4096, 0x80 + (n / 64) % 64, 0x80 + n % 64]
  else
    [0xF0 + n / 262144, 0x80 + (n / 4096) % 64, 0x80 + (n / 64) % 64, 0x80 + n % 64]

/-- UTF-8 bytes of a string. -/
def utf8Bytes (s : String) : List Nat := s.data.flatMap charUtf8

/-! ## Hex rendering (Python `hexdigest()`) -/

/-- Lower-case hex digit. -/
def hexChar (n : Nat) : Char :=
  "0123456789abcdef".data.getD n '0'

/-- Two lower-case hex digits of a byte. -/
def byteHex (b : Nat) : List Char := [hexChar (b / 16), hexChar (b % 16)]

/-- Hex string of a byte list. -/
def bytesHex (bs : List Nat) : String := ⟨bs.flatMap byteHex⟩

/-! ## 32-bit helpers -/

/-- Truncation to 32 bits. -/
def w32 (n : Nat) : Nat := n % 4294967296

/-- Left rotation of a 32-bit word. -/
def rotl32 (x s : Nat) : Nat :=
  (x % 2 ^ (32 - s)) * 2 ^ s + x / 2 ^ (32 - s)

/-- Right rotation of a 32-bit word. -/
def rotr32 (x s : Nat) : Nat := rotl32 x (32 - s)

/-- Bitwise complement within 32 bits. -/
def not32 (x : Nat) : Nat := 4294967295 - x

/-- Structural worker for `toBlocks`; the fuel is the list length, an upper
bound on the number of 64-byte blocks. -/
def toBlocksAux : Nat → List Nat → List (List Nat)
  | _, [] => []
  | 0, _ => []
  | fuel + 1, l => l.take 64 :: toBlocksAux fuel (l.drop 64)

/-- Split a byte list into blocks of 64 bytes. -/
def toBlocks (l : List Nat) : List (List Nat) := toBlocksAux l.length l

/-- Little-endian 32-bit words of a (64-)byte block. -/
def leWords : List Nat → List Nat
  | b0 :: b1 :: b2 :: b3 :: rest =>
    (b0 + b1 * 256 + b2 * 65536 + b3 * 16777216) :: leWords rest
  | _ => []

/-- Little-endian bytes of a 32-bit word. -/
def leBytes (w : Nat) : List Nat :=
  [w % 256, (w / 256) % 256, (w / 65536) % 256, (w / 16777216) % 256]

/-- Big-endian bytes of a 32-bit word. -/
def beBytes (w : Nat) : List Nat :=
  [(w / 16777216) % 256, (w / 65536) % 256, (w / 256) % 256, w % 256]

/-- Big-endian 32-bit words of a (64-)byte block. -/
def beWords : List Nat → List Nat
  | b0 :: b1 :: b2 :: b3 :: rest =>
    (b0 * 16777216 + b1 * 65536 + b2 * 256 + b3) :: beWords rest
  | _ => []

/-! ## MD5 (`hashlib.md5`), RFC 1321 -/

namespace MD5

/-- Per-round sine constant and rotation amount, rounds 0–63. -/
def rounds : List (Nat × Nat) := [
  (3614090360, 7), (3905402710, 12), (606105819, 17), (3250441966, 22),
  (4118548399, 7), (1200080426, 12), (2821735955, 17), (4249261313, 22),
  (1770035416, 7), (2336552879, 12), (4294925233, 17), (2304563134, 22),
  (1804603682, 7), (4254626195, 12), (2792965006, 17), (1236535329, 22),
  (4129170786, 5), (3225465664, 9), (643717713, 14), (3921069994, 20),
  (3593408605, 5), (38016083, 9), (3634488961, 14), (3889429448, 20),
  (568446438, 5), (3275163606, 9), (4107603335, 14), (1163531501, 20),
  (2850285829, 5), (4243563512, 9), (1735328473, 14), (2368359562, 20),
  (4294588738, 4), (2272392833, 11), (1839030562, 16), (4259657740, 23),
  (2763975236, 4), (1272893353, 11), (4139469664, 16), (3200236656, 23),
  (681279174, 4), (3936430074, 11), (3572445317, 16), (76029189, 23),
  (3654602809, 4), (3873151461, 11), (530742520, 16), (3299628645, 23),
  (4096336452, 6), (1126891415, 10), (2878612391, 15), (4237533241, 21),
  (1700485571, 6), (2399980690, 10), (4293915773, 15), (2240044497, 21),
  (1873313359, 6), (4264355552, 10), (2734768916, 15), (1309151649, 21),
  (4149444226, 6), (3174756917, 10), (718787259, 15), (3951481745, 21)]

/-- Mixing function and message index for round `i`. -/
def mix (i b c d : Nat) : Nat × Nat :=
  if i < 16 then
    (Nat.lor (Nat.land b c) (Nat.land (not32 b) d), i)
  else if i < 32 then
    (Nat.lor (Nat.land b d) (Nat.land c (not32 d)), (5 * i + 1) % 16)
  else if i < 48 then
    (Nat.xor (Nat.xor b c) d, (3 * i + 5) % 16)
  else
    (Nat.xor c (Nat.lor b (not32 d)), (7 * i) % 16)

/-- One MD5 round on the state `(i, a, b, c, d)` given the message words. -/
def step (m : List Nat) (st : Nat × Nat × Nat × Nat × Nat) (ks : Nat × Nat) :
    Nat × Nat × Nat × Nat × Nat :=
  let (i, a, b, c, d) := st
  let (f, g) := mix i b c d
  let t := w32 (a + f + ks.1 + m.getD g 0)
  (i + 1, d, w32 (b + rotl32 t ks.2), b, c)

/-- Compress one 64-byte block into the running state. -/
def compress (st : Nat × Nat × Nat × Nat) (block : List Nat) :
    Nat × Nat × Nat × Nat :=
  let m := leWords block
  let (a0, b0, c0, d0) := st
  let (_, a, b, c, d) := rounds.foldl (step m) (0, a0, b0, c0, d0)
  (w32 (a0 + a), w32 (b0 + b), w32 (c0 + c), w32 (d0 + d))

/-- RFC 1321 padding: `0x80`, zeros to 56 mod 64, then the 64-bit
little-endian bit length. -/
def pad (msg : List Nat) : List Nat :=
  let len := msg.length
  let zeros := (119 - len % 64) % 64
  let bits := (len * 8) % 2 ^ 64
  msg ++ 128 :: List.replicate zeros 0 ++
    [bits % 256, (bits / 2 ^ 8) % 256, (bits / 2 ^ 16) % 256,
     (bits / 2 ^ 24) % 256, (bits / 2 ^ 32) % 256, (bits / 2 ^ 40) % 256,
     (bits / 2 ^ 48) % 256, (bits / 2 ^ 56) % 256]

/-- MD5 digest bytes of a byte message. -/
def digestBytes (msg : List Nat) : List Nat :=
  let (a, b, c, d) :=
    (toBlocks (pad msg)).foldl compress
      (1732584193, 4023233417, 2562383102, 271733878)
  leBytes a ++ leBytes b ++ leBytes c ++ leBytes d

end MD5

/-- Python `hashlib.md5(s.encode()).hexdigest()`. -/
def md5Hex (s : String) : String := bytesHex (MD5.digestBytes (utf8Bytes s))


/-! ## SHA-256 (`hashlib.sha256`), FIPS 180-4 -/

namespace SHA256

/-- Round constants, the fractional cube roots of the first 64 primes. -/
def roundK : List Nat := [
  1116352408, 1899447441, 3049323471, 3921009573, 961987163, 1508970993, 2453635748, 2870763221,
  3624381080, 310598401, 607225278, 1426881987, 1925078388, 2162078206, 2614888103, 3248222580,
  3835390401, 4022224774, 264347078, 604807628, 770255983, 1249150122, 1555081692, 1996064986,
  2554220882, 2821834349, 2952996808, 3210313671, 3336571891, 3584528711, 113926993, 338241895,
  666307205, 773529912, 1294757372, 1396182291, 1695183700, 1986661051, 2177026350, 2456956037,
  2730485921, 2820302411, 3259730800, 3345764771, 3516065817, 3600352804, 4094571909, 275423344,
  430227734, 506948616, 659060556, 883997877, 958139571, 1322822218, 1537002063, 1747873779,
  1955562222, 2024104815, 2227730452, 2361852424, 2428436474, 2756734187, 3204031479, 3329325298]

/-- Small sigma 0 in the message schedule. -/
def ssig0 (x : Nat) : Nat :=
  Nat.xor (Nat.xor (rotr32 x 7) (rotr32 x 18)) (x / 2 ^ 3)

/-- Small sigma 1 in the message schedule. -/
def ssig1 (x : Nat) : Nat :=
  Nat.xor (Nat.xor (rotr32 x 17) (rotr32 x 19)) (x / 2 ^ 10)

/-- Big sigma 0 in the round function. -/
def bsig0 (x : Nat) : Nat :=
  Nat.xor (Nat.xor (rotr32 x 2) (rotr32 x 13)) (rotr32 x 22)

/-- Big sigma 1 in the round function. -/
def bsig1 (x : Nat) : Nat :=
  Nat.xor (Nat.xor (rotr32 x 6) (rotr32 x 11)) (rotr32 x 25)

/-- Message schedule: extend 16 words to 64. -/
def schedule (n : Nat) (w : List Nat) : List Nat :=
  match n with
  | 0 => w
  | n + 1 =>
    let i := w.length
    let next := w32 (ssig1 (w.getD (i - 2) 0) + w.getD (i - 7) 0 +
      ssig0 (w.getD (i - 15) 0) + w.getD (i - 16) 0)
    schedule n (w ++ [next])

/-- One compression round on state `(a,b,c,d,e,f,g,h)`. -/
def round (st : Nat × Nat × Nat × Nat × Nat × Nat × Nat × Nat) (kw : Nat × Nat) :
    Nat × Nat × Nat × Nat × Nat × Nat × Nat × Nat :=
  let (a, b, c, d, e, f, g, h) := st
  let ch := Nat.xor (Nat.land e f) (Nat.land (not32 e) g)
  let maj := Nat.xor (Nat.xor (Nat.land a b) (Nat.land a c)) (Nat.land b c)
  let t1 := w32 (h + bsig1 e + ch + kw.1 + kw.2)
  let t2 := w32 (bsig0 a + maj)
  (w32 (t1 + t2), a, b, c, w32 (d + t1), e, f, g)

/-- Compress one 64-byte block into the running state. -/
def compress (st : Nat × Nat × Nat × Nat × Nat × Nat × Nat × Nat)
    (block : List Nat) : Nat × Nat × Nat × Nat × Nat × Nat × Nat × Nat :=
  let w := schedule 48 (beWords block)
  let (a0, b0, c0, d0, e0, f0, g0, h0) := st
  let (a, b, c, d, e, f, g, h) := (roundK.zip w).foldl round st
  (w32 (a0 + a), w32 (b0 + b), w32 (c0 + c), w32 (d0 + d),
   w32 (e0 + e), w32 (f0 + f), w32 (g0 + g), w32 (h0 + h))

/-- FIPS 180-4 padding: `0x80`, zeros to 56 mod 64, then the 64-bit
big-endian bit length. -/
def pad (msg : List Nat) : List Nat :=
  let len := msg.length
  let zeros := (119 - len % 64) % 64
  let bits := (len * 8) % 2 ^ 64
  msg ++ 128 :: List.replicate zeros 0 ++
    [(bits / 2 ^ 56) % 256, (bits / 2 ^ 48) % 256, (bits / 2 ^ 40) % 256,
     (bits / 2 ^ 32) % 256, (bits / 2 ^ 24) % 256, (bits / 2 ^ 16) % 256,
     (bits / 2 ^ 8) % 256, bits % 256]

/-- Big-endian byte rendering of the eight state words. -/
def stateBytes (st : Nat × Nat × Nat × Nat × Nat × Nat × Nat × Nat) : List Nat :=
  beBytes st.1 ++ beBytes st.2.1 ++ beBytes st.2.2.1 ++ beBytes st.2.2.2.1 ++
    beBytes st.2.2.2.2.1 ++ beBytes st.2.2.2.2.2.1 ++
    beBytes st.2.2.2.2.2.2.1 ++ beBytes st.2.2.2.2.2.2.2

/-- SHA-256 digest bytes of a byte message. -/
def digestBytes (msg : List Nat) : List Nat :=
  stateBytes ((toBlocks (pad msg)).foldl compress
    (1779033703, 3144134277, 1013904242, 2773480762,
     1359893119, 2600822924, 528734635, 1541459225))

theorem stateBytes_length (st : Nat × Nat × Nat × Nat × Nat × Nat × Nat × Nat) :
    (stateBytes st).length = 32 := by
  simp [stateBytes, beBytes]

end SHA256


/-! ## Exact L2 nearest-neighbor search (`faiss.IndexFlatL2`)

An index is modelled as the list of its stored vectors in insertion order
(`reconstruct_n(0, ntotal)` is then the identity and `ntotal` the length).
`search` computes squared Euclidean distances and returns `(position,
distance)` pairs sorted ascending by distance, ties broken towards the
earlier insertion position, truncated to `k`.  Unlike the library, the
model does not pad with `-1` entries when fewer than `k` vectors are
stored; none of the modelled call sites depends on the padding. -/

/-- Squared Euclidean distance between two vectors. -/
def distSq (u v : List ℚ) : ℚ := (List.zipWith (fun a b => (a - b) ^ 2) u v).sum

/-- Order on `(position, distance)` pairs: ascending distance, ties broken
by the earlier position. -/
def lexLe (a b : Nat × ℚ) : Bool :=
  decide (a.2 < b.2) || (decide (a.2 = b.2) && decide (a.1 ≤ b.1))

/-- Ordered insertion for the stable sort. -/
def insertLe (le : α → α → Bool) (x : α) : List α → List α
  | [] => [x]
  | y :: ys => if le x y then x :: y :: ys else y :: insertLe le x ys

/-- Stable insertion sort. -/
def sortLe (le : α → α → Bool) : List α → List α
  | [] => []
  | x :: xs => insertLe le x (sortLe le xs)

/-- Pair each element with its position, starting at `n`. -/
def enumFrom (n : Nat) : List α → List (Nat × α)
  | [] => []
  | x :: xs => (n, x) :: enumFrom (n + 1) xs

/-- `faiss.IndexFlatL2.search`: the `k` nearest stored vectors to `q`,
as `(position, squared distance)` pairs ascending by distance. -/
def knnSearch (vecs : List (List ℚ)) (q : List ℚ) (k : Nat) : List (Nat × ℚ) :=
  (sortLe lexLe (enumFrom 0 (vecs.map (distSq q)))).take k

theorem distSq_cons (a b : ℚ) (u v : List ℚ) :
    distSq (a :: u) (b :: v) = (a - b) ^ 2 + distSq u v := by
  simp [distSq]

theorem distSq_nonneg (u v : List ℚ) : 0 ≤ distSq u v := by
  induction u generalizing v with
  | nil => simp [distSq]
  | cons a u ih =>
    cases v with
    | nil => simp [distSq]
    | cons b v =>
      rw [distSq_cons]
      have := ih v
      positivity

theorem distSq_self (v : List ℚ) : distSq v v = 0 := by
  induction v with
  | nil => rfl
  | cons a v ih => rw [distSq_cons, ih]; ring

theorem distSq_eq_zero {u v : List ℚ} (hl : u.length = v.length)
    (h : distSq u v = 0) : u = v := by
  induction u generalizing v with
  | nil => cases v with
    | nil => rfl
    | cons b v => simp at hl
  | cons a u ih =>
    cases v with
    | nil => simp at hl
    | cons b v =>
      rw [distSq_cons] at h
      have h1 : (0 : ℚ) ≤ (a - b) ^ 2 := sq_nonneg _
      have h2 : 0 ≤ distSq u v := distSq_nonneg u v
      have hz1 : (a - b) ^ 2 = 0 := by linarith
      have hz2 : distSq u v = 0 := by linarith
      have hab : a = b := by
        have := pow_eq_zero_iff (n := 2) (by norm_num) |>.mp hz1
        linarith [sub_eq_zero.mp this]
      simp only [List.length_cons, Nat.add_right_cancel_iff] at hl
      rw [hab, ih hl hz2]

theorem lexLe_refl (a : Nat × ℚ) : lexLe a a = true := by
  simp [lexLe]

theorem lexLe_total (a b : Nat × ℚ) : lexLe a b = true ∨ lexLe b a = true := by
  simp only [lexLe, Bool.or_eq_true, Bool.and_eq_true, decide_eq_true_eq]
  rcases lt_trichotomy a.2 b.2 with h | h | h
  · exact Or.inl (Or.inl h)
  · rcases Nat.le_total a.1 b.1 with h' | h'
    · exact Or.inl (Or.inr ⟨h, h'⟩)
    · exact Or.inr (Or.inr ⟨h.symm, h'⟩)
  · exact Or.inr (Or.inl h)

theorem lexLe_trans {a b c : Nat × ℚ} (h1 : lexLe a b = true)
    (h2 : lexLe b c = true) : lexLe a c = true := by
  simp only [lexLe, Bool.or_eq_true, Bool.and_eq_true, decide_eq_true_eq] at *
  rcases h1 with h1 | ⟨h1, h1'⟩ <;> rcases h2 with h2 | ⟨h2, h2'⟩
  · exact Or.inl (h1.trans h2)
  · exact Or.inl (h2 ▸ h1)
  · exact Or.inl (h1 ▸ h2)
  · exact Or.inr ⟨h1.trans h2, h1'.trans h2'⟩

theorem lexLe_antisymm {a b : Nat × ℚ} (h1 : lexLe a b = true)
    (h2 : lexLe b a = true) : a = b := by
  simp only [lexLe, Bool.or_eq_true, Bool.and_eq_true, decide_eq_true_eq] at *
  rcases h1 with h1 | ⟨h1, h1'⟩ <;> rcases h2 with h2 | ⟨h2, h2'⟩
  · exact absurd (h1.trans h2) (lt_irrefl _)
  · exact absurd h1 (h2 ▸ lt_irrefl _)
  · exact absurd h2 (h1 ▸ lt_irrefl _)
  · exact Prod.ext (Nat.le_antisymm h1' h2') h1

theorem mem_insertLe {le : α → α → Bool} {x a : α} {l : List α} :
    a ∈ insertLe le x l ↔ a = x ∨ a ∈ l := by
  induction l with
  | nil => simp [insertLe]
  | cons y ys ih =>
    by_cases h : le x y = true
    · simp [insertLe, h]
    · simp only [insertLe, if_neg h, List.mem_cons, ih]
      tauto

theorem mem_sortLe {le : α → α → Bool} {a : α} {l : List α} :
    a ∈ sortLe le l ↔ a ∈ l := by
  induction l with
  | nil => simp [sortLe]
  | cons x xs ih => simp [sortLe, mem_insertLe, ih]

theorem sortLe_eq_nil {le : α → α → Bool} {l : List α}
    (h : sortLe le l = []) : l = [] := by
  cases l with
  | nil => rfl
  | cons x xs =>
    exfalso
    have : x ∈ sortLe le (x :: xs) := mem_sortLe.mpr (List.mem_cons_self x xs)
    rw [h] at this
    exact List.not_mem_nil x this

theorem mem_enumFrom {l : List α} {n : Nat} {p : Nat × α} :
    p ∈ enumFrom n l ↔ ∃ j, ∃ h : j < l.length, p = (n + j, l[j]) := by
  induction l generalizing n with
  | nil => simp [enumFrom]
  | cons x xs ih =>
    simp only [enumFrom, List.mem_cons, ih]
    constructor
    · rintro (rfl | ⟨j, hj, rfl⟩)
      · exact ⟨0, by simp, by simp⟩
      · refine ⟨j + 1, by simpa using Nat.succ_lt_succ hj, ?_⟩
        simp only [List.getElem_cons_succ]
        congr 1
        omega
    · rintro ⟨j, hj, rfl⟩
      cases j with
      | zero => left; simp
      | succ j =>
        right
        refine ⟨j, by simpa using Nat.lt_of_succ_lt_succ hj, ?_⟩
        simp only [List.getElem_cons_succ]
        congr 1
        omega

/-- The head of the insertion sort is a minimum of the list, for any total
transitive boolean order. -/
theorem sortLe_head_min {le : α → α → Bool}
    (htot : ∀ a b, le a b = true ∨ le b a = true)
    (htrans : ∀ {a b c}, le a b = true → le b c = true → le a c = true) :
    ∀ {l : List α} {y : α} {ys : List α}, sortLe le l = y :: ys →
      y ∈ l ∧ ∀ z ∈ l, le y z = true := by
  intro l
  induction l with
  | nil => intro y ys h; simp [sortLe] at h
  | cons x xs ih =>
    intro y ys h
    have hrefl : ∀ a, le a a = true := fun a => (htot a a).elim id id
    rw [sortLe] at h
    rcases hs : sortLe le xs with - | ⟨y0, ys0⟩
    · have hxs : xs = [] := sortLe_eq_nil hs
      rw [hs] at h
      simp only [insertLe, List.cons.injEq] at h
      subst hxs
      refine ⟨by simp [h.1], ?_⟩
      intro z hz
      simp only [List.mem_cons, List.not_mem_nil, or_false] at hz
      rw [hz, ← h.1]
      exact hrefl x
    · obtain ⟨hy0mem, hy0min⟩ := ih hs
      rw [hs] at h
      by_cases hle : le x y0 = true
      · simp only [insertLe, if_pos hle, List.cons.injEq] at h
        refine ⟨?_, ?_⟩
        · rw [← h.1]; exact List.mem_cons_self x xs
        · intro z hz
          rw [← h.1]
          rcases List.mem_cons.mp hz with hzx | hz'
          · rw [hzx]; exact hrefl x
          · exact htrans hle (hy0min z hz')
      · simp only [insertLe, if_neg hle, List.cons.injEq] at h
        obtain ⟨rfl, -⟩ := h
        refine ⟨List.mem_cons_of_mem x hy0mem, ?_⟩
        intro z hz
        rcases List.mem_cons.mp hz with rfl | hz
        · rcases htot y0 z with h' | h'
          · exact h'
          · exact absurd h' (by simpa using hle)
        · exact hy0min z hz

/-- When the query is itself one of the stored vectors (all of the same
dimension as the query), the top-1 search returns the earliest position holding a vector
equal to the query, at distance `0`. -/
theorem knnSearch_top1 (vecs : List (List ℚ)) (q : List ℚ)
    (hlen : ∀ v ∈ vecs, v.length = q.length) (hq : q ∈ vecs) :
    knnSearch vecs q 1 = [(vecs.findIdx (fun v => decide (v = q)), 0)] := by
  have hj0lt : vecs.findIdx (fun v => decide (v = q)) < vecs.length :=
    List.findIdx_lt_length_of_exists ⟨q, hq, by simp⟩
  set j0 := vecs.findIdx (fun v => decide (v = q)) with hj0
  have hvj0 : vecs[j0] = q := by
    have := @List.findIdx_getElem _ (fun v => decide (v = q)) vecs hj0lt
    simpa using this
  have hmem_m : ((j0, (0 : ℚ)) : Nat × ℚ) ∈ enumFrom 0 (vecs.map (distSq q)) := by
    rw [mem_enumFrom]
    refine ⟨j0, by simpa using hj0lt, ?_⟩
    simp [List.getElem_map, hvj0, distSq_self]
  have hmin : ∀ z ∈ enumFrom 0 (vecs.map (distSq q)), lexLe (j0, 0) z = true := by
    intro z hz
    obtain ⟨j, hjl, rfl⟩ := mem_enumFrom.mp hz
    have hjv : j < vecs.length := by simpa using hjl
    simp only [List.getElem_map]
    rcases eq_or_ne (vecs[j]) q with he | hne
    · have hle : j0 ≤ j := by
        by_contra hlt
        have hfalse := @List.not_of_lt_findIdx _ (fun v => decide (v = q))
          vecs _ (Nat.lt_of_not_le hlt)
        simp [he] at hfalse
      simp [lexLe, he, distSq_self, hle]
    · have hds : distSq q vecs[j] ≠ 0 := by
        intro h0
        exact hne (distSq_eq_zero ((hlen _ (List.getElem_mem hjv)).symm) h0).symm
      have hpos : 0 < distSq q vecs[j] :=
        lt_of_le_of_ne (distSq_nonneg _ _) (Ne.symm hds)
      simp [lexLe, hpos]
  rcases hsort : sortLe lexLe (enumFrom 0 (vecs.map (distSq q))) with - | ⟨y, ys⟩
  · exfalso
    have := sortLe_eq_nil hsort
    rw [this] at hmem_m
    exact List.not_mem_nil _ hmem_m
  · obtain ⟨hymem, hymin⟩ := sortLe_head_min lexLe_total lexLe_trans hsort
    have hy : y = (j0, 0) := lexLe_antisymm (hymin _ hmem_m) (hmin y hymem)
    simp [knnSearch, hsort, hy]

/-! ## Deterministic fallback embedding provider (`FallbackEmbedder`)

The source computes `sha256(text.encode("utf-8")).digest()`, tiles the
32 digest bytes to the 384-entry target dimension, reads them as floats
and divides by `np.linalg.norm(arr) or 1.0`.  The real square root of the
squared norm is not representable in an executable rational model, so the
integer square root stands in as the positive normalizer (with the same
`or 1.0` guard against an all-zero digest).  Every theorem below is
invariant under the choice of positive normalizer: only determinism of
`text ↦ vector` and the metric properties of `distSq` are used. -/

namespace FallbackEmbedder

/-- Target dimension (`dim=384`). -/
def dim : Nat := 384

/-- Digest bytes tiled to the target dimension:
`(h * ((dim // len(h)) + 1))[:dim]`. -/
def tiled (text : String) : List Nat :=
  (List.replicate (dim / (SHA256.digestBytes (utf8Bytes text)).length + 1)
    (SHA256.digestBytes (utf8Bytes text))).join.take dim

/-- The deterministic hash-based vector of a text (`FallbackEmbedder._vec`). -/
def vec (text : String) : List ℚ :=
  let b : List Nat := tiled text
  let n : Nat := Nat.sqrt ((b.map fun x => x * x).sum)
  let norm : ℚ := if n = 0 then 1 else (n : ℚ)
  b.map fun x : Nat => (x : ℚ) / norm

/-- `embed_documents`: element order preserved. -/
def embedDocuments (docs : List String) : List (List ℚ) := docs.map vec

/-- `embed_query`. -/
def embedQuery (q : String) : List ℚ := vec q

end FallbackEmbedder

/-- `create_simple_faiss_index`: a flat L2 index over the fallback
embeddings of the chunks, one vector per chunk (the index of the model is the
stored vector list itself). -/
def createSimpleFaissIndex (chunks : List String) : List (List ℚ) :=
  FallbackEmbedder.embedDocuments chunks

theorem sha256_digest_length (msg : List Nat) :
    (SHA256.digestBytes msg).length = 32 :=
  SHA256.stateBytes_length _

theorem join_replicate_length (n : Nat) (l : List α) :
    (List.replicate n l).join.length = n * l.length := by
  induction n with
  | zero => simp
  | succ n ih => simp [List.replicate_succ, ih, Nat.succ_mul]; omega

theorem tiled_length (t : String) : (FallbackEmbedder.tiled t).length = 384 := by
  rw [FallbackEmbedder.tiled, List.length_take, join_replicate_length,
    sha256_digest_length]
  decide

theorem fallbackVec_length (t : String) : (FallbackEmbedder.vec t).length = 384 := by
  rw [FallbackEmbedder.vec]
  simp only [List.length_map, tiled_length]

/-! ## Data model: the module-level stores of `backend_api.py`

`DOC_TEXT`, `DOC_INDEX`, `DOC_METADATA`, `CHUNK_METADATA`,
`DOCUMENT_COLLECTIONS`, `CROSS_DOC_INDEX`, `RESPONSE_CACHE` and
`CONVERSATION_MEMORY`.  `CROSS_DOC_INDEX` is a single Python dict that
stores, under a collection id, a faiss index, and under the derived key
obtained by appending `_map` to the collection id, the vector-to-document
list; the model mirrors
this with a sum type.  `DOC_FILES` (paths on disk) and the performance
counters (observational only per spec section 4.11) are elided. -/

/-- Metadata stored per document (`DOC_METADATA[doc_id]`). -/
structure DocMetadata where
  filename : String
  pagesCount : Nat
  uploadTime : String
  fileSizeKb : ℚ
deriving Repr, DecidableEq

/-- Per-chunk citation metadata (`CHUNK_METADATA[doc_id][i]`). -/
structure ChunkMeta where
  chunkId : Nat
  pageNumber : Nat
  position : String
  chunkLength : Nat
  preview : String
deriving Repr, DecidableEq

/-- A classification result; the `reasoning` text is elided (no modelled
consumer reads it). -/
structure Classification where
  category : String
  confidence : ℚ
deriving Repr, DecidableEq

/-- A handler response dict.  The model keeps the keys the claims are
about (`answer`, `response_type`, `sources`, `handlers_used`); auxiliary
metadata keys (`suggestion`, `document_info`, `collection_info`,
`synthesis_quality`, `multi_doc_sources`, `error`) are elided. -/
structure Response where
  answer : String
  responseType : String
  sources : List String := []
  handlersUsed : List String := []
deriving Repr, DecidableEq

/-- A `RESPONSE_CACHE` entry: the stored response snapshot and its
creation timestamp. -/
structure CacheEntry where
  response : Response
  timestamp : ℚ
deriving Repr, DecidableEq

/-- A conversation turn; the model keeps the fields read back by
`detect_follow_up` (`question`, `response_type`); timestamp,
classification record and answer preview are write-only in the source. -/
structure Turn where
  question : String
  responseType : String
deriving Repr, DecidableEq

/-- Result of `detect_follow_up`; the source returns a one-key dict on the
negative path, modelled by empty defaults. -/
structure FollowUpInfo where
  isFollowUp : Bool
  previousType : String := ""
  previousQuestion : String := ""
  contextTurns : Nat := 0
deriving Repr, DecidableEq

/-- A value of the `CROSS_DOC_INDEX` dict: a combined faiss index under
the collection id, or the vector-to-document map under `cid ++ "_map"`. -/
inductive CrossVal where
  | idx (vecs : List (List ℚ))
  | map (m : List String)
deriving Repr, DecidableEq

/-- One hit of `search_across_documents`. -/
structure SearchHit where
  docId : String
  chunk : String
  distance : ℚ
  chunkIndex : Nat
deriving Repr, DecidableEq

/-- `ContextManager.get_document_context` result (the `{}` case is
`Option.none` at call sites). -/
structure DocCtx where
  filename : String
  pagesCount : Nat
  chunksCount : Nat
  uploadTime : String
  fileSizeKb : ℚ
deriving Repr, DecidableEq

/-- The process-wide mutable stores. -/
structure AppState where
  docText : String → Option (List String)
  docIndex : String → Option (List (List ℚ))
  docMetadata : String → Option DocMetadata
  chunkMetadata : String → Option (List ChunkMeta)
  collections : String → Option (List String)
  crossDoc : String → Option CrossVal
  responseCache : List (String × CacheEntry)
  conversationMemory : String → Option (List Turn)

/-- The stores at process start. -/
def emptyState : AppState :=
  ⟨fun _ => none, fun _ => none, fun _ => none, fun _ => none,
   fun _ => none, fun _ => none, [], fun _ => none⟩

/-- Environment of a request: the primary embedding call (`some v` when
the `try` block returns vector `v`, covering both the Vertex call and the
`USE_FAKE` branch; `none` when it raises) and the language model
(`none` when unavailable; `invoke p = none` when `llm.invoke` raises). -/
structure Env where
  primaryEmbed : String → Option (List ℚ)
  llm : Option (String → Option String)

/-- Python `sep.join(parts)` for a separator string `sep`. -/
def joinStrings (sep : String) : List String → String
  | [] => ""
  | [x] => x
  | x :: xs => x ++ sep ++ joinStrings sep xs

/-- Python slicing `s[:n]`. -/
def strTake (s : String) (n : Nat) : String := ⟨s.data.take n⟩

/-- Character-level worker for Python `str.title()`: a cased character
following a cased character is lowered, otherwise uppered. -/
def titleChars : Bool → List Char → List Char
  | _, [] => []
  | prevAlpha, c :: rest =>
    (if prevAlpha then c.toLower else c.toUpper) :: titleChars c.isAlpha rest

/-- Python `str.title()` (ASCII). -/
def strTitle (s : String) : String := ⟨titleChars false s.data⟩

/-- The system name from `ContextManager.get_system_context`; the context
also carries the current date/time and a capability list, which only feed
prompt and answer text not examined by any claim. -/
def systemName : String := "DocSpotlight"

/-! ## ConversationManager -/

namespace ConversationManager

/-- `add_to_history`: append a turn, keeping only the last 10. -/
def addToHistory (st : AppState) (sessionId question respType : String) :
    AppState :=
  let hist := (st.conversationMemory sessionId).getD []
  let hist1 := hist ++ [⟨question, respType⟩]
  let hist2 := if hist1.length > 10 then hist1.drop (hist1.length - 10) else hist1
  { st with conversationMemory :=
      Function.update st.conversationMemory sessionId (some hist2) }

/-- The six follow-up regex patterns of `detect_follow_up`, applied to the
lowered and stripped question: anchored groups become prefix tests and
unanchored groups substring tests. -/
def followUpMatch (ql : String) : Bool :=
  (strStarts ql "and" || strStarts ql "also" || strStarts ql "what about" ||
     strStarts ql "how about") ||
  (strContains ql "more" || strContains ql "else" || strContains ql "other") ||
  (strContains ql "elaborate" || strContains ql "expand" || strContains ql "explain") ||
  (strContains ql "what else" || strContains ql "anything else") ||
  (strStarts ql "that" || strStarts ql "this" || strStarts ql "it") ||
  (strContains ql "further" || strContains ql "additional")

/-- `detect_follow_up`. -/
def detectFollowUp (st : AppState) (question sessionId : String) : FollowUpInfo :=
  match st.conversationMemory sessionId with
  | none => ⟨false, "", "", 0⟩
  | some hist =>
    if hist.isEmpty then ⟨false, "", "", 0⟩
    else
      let lastTurn := hist.getLast?.getD ⟨"", ""⟩
      let ql := strTrim (strLower question)
      if followUpMatch ql then
        ⟨true, lastTurn.responseType, lastTurn.question, hist.length⟩
      else ⟨false, "", "", 0⟩

end ConversationManager

/-! ## ResponseCache -/

namespace ResponseCache

/-- The data hashed into a cache key:
the lowered and stripped question, the document id and the
classification category, joined by underscores. -/
def cacheKeyData (question docId : String) (cls : Classification) : String :=
  strTrim (strLower question) ++ "_" ++ docId ++ "_" ++ cls.category

/-- `_generate_cache_key`: the md5 hex digest of the key data. -/
def generateCacheKey (question docId : String) (cls : Classification) : String :=
  md5Hex (cacheKeyData question docId cls)

/-- Lookup in the insertion-ordered cache. -/
def lookupCache (c : List (String × CacheEntry)) (k : String) :
    Option CacheEntry :=
  (c.find? fun p => decide (p.1 = k)).map (·.2)

/-- Deletion (`del RESPONSE_CACHE[key]`). -/
def eraseCache (c : List (String × CacheEntry)) (k : String) :
    List (String × CacheEntry) :=
  c.filter fun p => !(decide (p.1 = k))

/-- Python dict assignment: replace in place, else append. -/
def insertCache (c : List (String × CacheEntry)) (k : String) (e : CacheEntry) :
    List (String × CacheEntry) :=
  if c.any fun p => decide (p.1 = k) then
    c.map fun p => if p.1 = k then (k, e) else p
  else c ++ [(k, e)]

/-- `get_cached_response`: a hit only while `now - timestamp < CACHE_TTL`
(3600 s); an expired entry is deleted by the discovering access.  The
source returns `{}` on a miss, modelled as `none`; the cache-hit
performance counter is elided. -/
def getCachedResponse (st : AppState) (question docId : String)
    (cls : Classification) (now : ℚ) : Option Response × AppState :=
  let k := generateCacheKey question docId cls
  match lookupCache st.responseCache k with
  | some e =>
    if now - e.timestamp < 3600 then (some e.response, st)
    else (none, { st with responseCache := eraseCache st.responseCache k })
  | none => (none, st)

/-- Entries sorted ascending by timestamp (Python `sorted` is stable, as
is this insertion sort with a non-strict comparison). -/
def sortByTimestamp (c : List (String × CacheEntry)) :
    List (String × CacheEntry) :=
  sortLe (fun a b => decide (a.2.timestamp ≤ b.2.timestamp)) c

/-- `cache_response`: store a snapshot with the current timestamp; if the
cache then holds more than 1000 entries, delete the 200 oldest. -/
def cacheResponse (st : AppState) (question docId : String)
    (cls : Classification) (resp : Response) (now : ℚ) : AppState :=
  let k := generateCacheKey question docId cls
  let c := insertCache st.responseCache k ⟨resp, now⟩
  let c2 :=
    if c.length > 1000 then
      let victims := ((sortByTimestamp c).take 200).map (·.1)
      c.filter fun p => !(victims.contains p.1)
    else c
  { st with responseCache := c2 }

end ResponseCache

/-! ## CitationTracker -/

namespace CitationTracker

/-- The per-chunk loop of `add_chunk_metadata` (success path), carrying
the forward-only page pointer and the current page text.  `total` is the
length of the full chunk list; the ordinal position tags of the source compare
`i < len(chunks) * 0.1` and `i > len(chunks) * 0.9` in floating point,
which over exact arithmetic is `10 * i < total` and `10 * i > 9 * total`. -/
def chunkMetaLoop (pages : List String) (total : Nat) :
    Nat → Nat → String → List String → List ChunkMeta
  | _, _, _, [] => []
  | i, cp, pt, chunk :: rest =>
    let pos :=
      if 10 * i < total then "top"
      else if 10 * i > 9 * total then "bottom"
      else "middle"
    let found := strContains pt (strTake chunk 100)
    let next :=
      if found then (cp, cp, pt)
      else if cp < pages.length then (cp + 1, cp + 1, pages.getD cp "")
      else (cp, cp, pt)
    ⟨i, next.1, pos, chunk.data.length,
      if chunk.data.length > 150 then strTake chunk 150 ++ "..." else chunk⟩ ::
      chunkMetaLoop pages total (i + 1) next.2.1 next.2.2 rest

/-- `add_chunk_metadata`, success path (the extraction-failure fallback
also appends exactly one entry per chunk).  `pages` are the page texts of
the PDF at `pdf_path`.  Note the source initialises the per-document list
only when absent and then appends. -/
def addChunkMetadata (st : AppState) (docId : String)
    (chunks pages : List String) : AppState :=
  let old := (st.chunkMetadata docId).getD []
  let metas := chunkMetaLoop pages chunks.length 0 1 (pages.getD 0 "") chunks
  { st with chunkMetadata :=
      Function.update st.chunkMetadata docId (some (old ++ metas)) }

end CitationTracker

/-! ## MultiDocumentManager -/

namespace MultiDocumentManager

/-- `_build_collection_index`: reconstruct the vectors of each member document
in the given order, concatenating them and a block of repeated document
ids; store both only when at least one vector was collected. -/
def buildCollectionIndex (st : AppState) (collectionId : String)
    (docIds : List String) : AppState :=
  let acc := docIds.foldl
    (fun (acc : List (List ℚ) × List String) d =>
      match st.docIndex d with
      | some vecs => (acc.1 ++ vecs, acc.2 ++ List.replicate vecs.length d)
      | none => acc)
    ([], [])
  if acc.1.isEmpty then st
  else
    { st with crossDoc := fun k =>
        if k = collectionId then some (.idx acc.1)
        else if k = collectionId ++ "_map" then some (.map acc.2)
        else st.crossDoc k }

/-- `create_document_collection`: the id is the first 12 hex characters of
the md5 of the name and the hyphen-joined member ids, joined by an
underscore; the member list is
stored and the combined index rebuilt (destructively). -/
def createDocumentCollection (st : AppState) (collectionName : String)
    (docIds : List String) : AppState × String :=
  let collectionId :=
    strTake (md5Hex (collectionName ++ "_" ++ joinStrings "-" docIds)) 12
  let st1 := { st with
    collections := Function.update st.collections collectionId (some docIds) }
  (buildCollectionIndex st1 collectionId docIds, collectionId)

/-- `search_across_documents`: k-NN over the combined index, keeping a hit
only when its combined position indexes into the map and into the owning
own chunk list of the owning document — note the source reads the chunk at the
combined position, not at a block-local position. -/
def searchAcrossDocuments (st : AppState) (collectionId : String)
    (q : List ℚ) (k : Nat) : List SearchHit :=
  match st.crossDoc collectionId with
  | some (.idx vecs) =>
    let vmap :=
      match st.crossDoc (collectionId ++ "_map") with
      | some (.map m) => m
      | _ => []
    (knnSearch vecs q k).filterMap fun p =>
      if p.1 < vmap.length then
        let docId := vmap.getD p.1 ""
        let docChunks := (st.docText docId).getD []
        if p.1 < docChunks.length then
          some ⟨docId, docChunks.getD p.1 "", p.2, p.1⟩
        else none
      else none
  | _ => []

end MultiDocumentManager

/-- Modelled from the spec (section 4.4): resolution of a combined-index
hit position through the vector-to-document map back into the owning
local chunk index of the owning document.  Blocks are contiguous, so the local index
is the number of earlier map positions owned by the same document. -/
def specLocalChunk (st : AppState) (collectionId : String) (idx : Nat) :
    Option String :=
  match st.crossDoc (collectionId ++ "_map") with
  | some (.map m) =>
    if idx < m.length then
      let d := m.getD idx ""
      let localIdx := ((m.take idx).filter fun x => decide (x = d)).length
      some (((st.docText d).getD []).getD localIdx "")
    else none
  | _ => none

/-! ## AdvancedRouter -/

namespace AdvancedRouter

/-- `CONFIDENCE_THRESHOLDS["HIGH"]`. -/
def thresholdHigh : ℚ := 8 / 10

/-- `CONFIDENCE_THRESHOLDS["MEDIUM"]`. -/
def thresholdMedium : ℚ := 6 / 10

/-- `CONFIDENCE_THRESHOLDS["LOW"]`. -/
def thresholdLow : ℚ := 4 / 10

/-- A routing decision dict; single-handler results carry
`primary_handler`, hybrid ones `handlers`. -/
structure RoutingDecision where
  useHybrid : Bool
  primaryHandler : String := ""
  handlers : List String := []
  reason : String
deriving Repr, DecidableEq

/-- `should_use_hybrid_response`, in the decision order of the source. -/
def shouldUseHybridResponse (classification : Classification)
    (question : String) (followUpInfo : FollowUpInfo) : RoutingDecision :=
  let confidence := classification.confidence
  let category := classification.category
  let ql := strLower question
  if confidence ≥ thresholdHigh then
    ⟨false, category, [], "High confidence single classification"⟩
  else if followUpInfo.isFollowUp ∧
      category ≠ strReplace (strUpper followUpInfo.previousType) "_" "_" then
    ⟨true, "", [category, strUpper followUpInfo.previousType],
      "Follow-up question spanning multiple contexts"⟩
  else if thresholdLow ≤ confidence ∧ confidence < thresholdHigh ∧
      category = "PDF_CONTENT" ∧
      (strContains ql "explain" || strContains ql "what is" ||
        strContains ql "define" || strContains ql "how does") then
    ⟨true, "", ["PDF_CONTENT", "GENERAL"],
      "Content question that might benefit from general knowledge"⟩
  else if thresholdLow ≤ confidence ∧ confidence < thresholdHigh ∧
      category = "PDF_META" ∧
      (strContains ql "about" || strContains ql "topic" ||
        strContains ql "discusses" || strContains ql "covers") then
    ⟨true, "", ["PDF_META", "PDF_CONTENT"],
      "Meta question that might need content analysis"⟩
  else
    ⟨false, category, [], "Standard single handler routing"⟩

/-- One labeled handler output inside a hybrid dispatch. -/
structure HandlerResp where
  type : String
  answer : String
  sources : List String
deriving Repr, DecidableEq

/-- The handler label: the type of the response with underscores turned
into spaces, title-cased. -/
def hybridLabel (t : String) : String := strTitle (strReplace t "_" " ")

/-- Concatenation of all handler source lists (no deduplication). -/
def allSources (responses : List HandlerResp) : List String :=
  responses.foldl (fun acc r => acc ++ r.sources) []

/-- The no-LLM fallback of `_synthesize_hybrid_responses`: concatenate
the labeled non-empty answers. -/
def concatSynthesis (responses : List HandlerResp) : Response :=
  let combined := (responses.filter fun r => !(decide (r.answer = ""))).map
    fun r => "**" ++ hybridLabel r.type ++ "**: " ++ r.answer
  ⟨joinStrings "\n\n" combined, "hybrid_fallback", allSources responses,
    responses.map (·.type)⟩

/-- The LLM synthesis prompt of `_synthesize_hybrid_responses`. -/
def synthesisPrompt (question docFilename responseContent : String) : String :=
  "You are " ++ systemName ++
    ", synthesizing multiple response perspectives into one coherent answer. " ++
    "The user asked: \x27" ++ question ++ "\x27 about document \x27" ++
    docFilename ++ "\x27. " ++
    "I have responses from different analysis approaches. Combine them into a natural, helpful answer. " ++
    "Avoid redundancy, maintain accuracy, and create a flowing response.\n\n" ++
    "Multiple perspectives:\n" ++ responseContent ++ "\n\nSynthesized answer:"

/-- `_synthesize_hybrid_responses`.  The source, on a failed `llm.invoke`,
calls itself recursively with unchanged arguments; the model makes the
recursion explicit through a fuel parameter, `none` standing for the
computation that exhausts every finite amount of fuel (non-termination).
`docFilename` is the document filename defaulting to "uploaded
document". -/
def synthesizeHybrid : Nat → Option (String → Option String) →
    List HandlerResp → String → String → Option Response
  | 0, _, _, _, _ => none
  | _ + 1, none, responses, _, _ => some (concatSynthesis responses)
  | fuel + 1, some invoke, responses, question, docFilename =>
    let responseContent := joinStrings "\n\n"
      (((responses.filter fun r => !(decide (r.answer = ""))).map
        fun r => "**" ++ hybridLabel r.type ++ " Response**: " ++ r.answer))
    match invoke (synthesisPrompt question docFilename responseContent) with
    | some text =>
      some ⟨text, "hybrid_synthesized", allSources responses,
        responses.map (·.type)⟩
    | none => synthesizeHybrid fuel (some invoke) responses question docFilename

end AdvancedRouter

/-! ## Response handlers (retrieval paths) -/

/-- `ContextManager.get_document_context` (`none` models the `{}` returned
for an unknown id). -/
def getDocumentContext (st : AppState) (docId : String) : Option DocCtx :=
  (st.docMetadata docId).map fun m =>
    ⟨m.filename, m.pagesCount, ((st.docText docId).getD []).length,
      m.uploadTime, m.fileSizeKb⟩

/-- The grounded prompt of `handle_pdf_content`. -/
def pdfContentPrompt (filename context question : String) : String :=
  "You are " ++ systemName ++ ", analyzing the document **" ++ filename ++
    "**. Answer the question using ONLY the provided context from the PDF. " ++
    "If the answer isn\x27t in the context, say so clearly. Be accurate and cite relevant details.\n\n" ++
    "Document context:\n" ++ context ++ "\n\nQuestion: " ++ question ++ "\nAnswer:"

/-- `ResponseHandlers.handle_pdf_content`: embed the question (falling
back to the deterministic embedder when the primary call raises), run a
k=3 search, map positions back to chunk texts dropping out-of-range
positions, and answer from the retrieved context.  The source raises
`KeyError` on an unknown `doc_id`; every modelled call site guards
membership first, so the lookups here default to `[]`. -/
def handlePdfContent (st : AppState) (env : Env) (question docId : String)
    (docCtx : Option DocCtx) : Response :=
  let chunks := (st.docText docId).getD []
  let index := (st.docIndex docId).getD []
  let qVec :=
    match env.primaryEmbed question with
    | some v => v
    | none => FallbackEmbedder.embedQuery question
  let retrieved := (knnSearch index qVec 3).filterMap fun p =>
    if p.1 < chunks.length then some (chunks.getD p.1 "") else none
  if retrieved.isEmpty then
    { answer := "I couldn\x27t find relevant information about that in **" ++
        ((docCtx.map (·.filename)).getD "your document") ++
        "**. Would you like me to provide general information about this topic instead?",
      responseType := "pdf_content_not_found", sources := [] }
  else
    match env.llm with
    | none =>
      { answer := "I found relevant content but need the language model to generate an answer.",
        responseType := "pdf_content_error", sources := retrieved }
    | some invoke =>
      let context := joinStrings "\n\n" retrieved
      let prompt := pdfContentPrompt
        ((docCtx.map (·.filename)).getD "uploaded document") context question
      let answer :=
        match invoke prompt with
        | some a => a
        | none => "I found relevant content in " ++
            ((docCtx.map (·.filename)).getD "your document") ++
            " but encountered an error generating the response."
      { answer := answer, responseType := "pdf_content", sources := retrieved }

/-- One per-document result inside the multi-document fallback path. -/
structure DocResult where
  docId : String
  filename : String
  answer : String
  sources : List String
deriving Repr, DecidableEq

/-- The combined-context prompt of `handle_multi_document_content`. -/
def multiDocPrompt (docCount : Nat) (context question : String) : String :=
  "You are " ++ systemName ++ ", analyzing " ++ toString docCount ++
    " documents in a collection. " ++
    "Answer the question using the provided context from multiple PDF documents. " ++
    "When citing information, mention which document it comes from. " ++
    "If the answer spans multiple documents, synthesize the information clearly.\n\n" ++
    "Multi-document context:\n" ++ context ++ "\n\nQuestion: " ++ question ++ "\nAnswer:"

/-- The synthesis prompt of the multi-document fallback path. -/
def multiDocSynthesisPrompt (question : String) (docCount : Nat)
    (synthesisContext : String) : String :=
  "You are " ++ systemName ++ ", synthesizing findings from multiple documents. " ++
    "The user asked: \x27" ++ question ++ "\x27. I searched " ++ toString docCount ++
    " documents and found relevant information. " ++
    "Synthesize the following findings into a coherent answer:\n\n" ++
    synthesisContext ++ "\n\nSynthesized answer:"

/-- `ResponseHandlers.handle_multi_document_content`.  When the combined
index exists, the entire search-and-respond block of the source (lines
1313–1376) is indented inside the `except` handler of the embedding
`try`, so a successful embedding makes control fall off the end of the
function and return `None` (modelled as `none`; the second `except`
clause at line 1378 is unreachable).  Only an embedding failure runs the
combined-index search.  Without a combined index, the first three member
documents are searched individually through `handle_pdf_content`. -/
def handleMultiDocumentContent (st : AppState) (env : Env)
    (question collectionId : String) : Option Response :=
  match st.collections collectionId with
  | none =>
    some { answer := "Collection not found for multi-document search.",
           responseType := "collection_error", sources := [] }
  | some docIds =>
    if (st.crossDoc collectionId).isSome then
      match env.primaryEmbed question with
      | some _ => none
      | none =>
        let qVec := FallbackEmbedder.embedQuery question
        let results :=
          MultiDocumentManager.searchAcrossDocuments st collectionId qVec 5
        if results.isEmpty then
          let ans := "I couldn\x27t find relevant information in the " ++
            toString docIds.length ++ " documents of this collection."
          some { answer := ans, responseType := "multi_doc_not_found", sources := [] }
        else
          let sourceTexts := results.map (·.chunk)
          match env.llm with
          | none =>
            some { answer := "Found relevant content across multiple documents but need language model to generate answer.",
                   responseType := "multi_doc_error", sources := sourceTexts }
          | some invoke =>
            let contextParts := results.map fun r =>
              "[" ++ (((st.docMetadata r.docId).map (·.filename)).getD "Unknown") ++
                "]: " ++ r.chunk
            let prompt :=
              multiDocPrompt docIds.length (joinStrings "\n\n" contextParts) question
            let answer :=
              match invoke prompt with
              | some a => a
              | none => "I found relevant content across " ++
                  toString results.length ++
                  " documents but encountered an error generating the response."
            some { answer := answer, responseType := "multi_document_content",
                   sources := sourceTexts }
    else
      let allResults : List DocResult := (docIds.take 3).filterMap fun d =>
        if (st.docText d).isSome && (st.docIndex d).isSome then
          let r := handlePdfContent st env question d (getDocumentContext st d)
          if r.sources.isEmpty then none
          else some ⟨d, ((st.docMetadata d).map (·.filename)).getD "Unknown",
            r.answer, r.sources⟩
        else none
      if allResults.isEmpty then
        let ans := "I couldn\x27t find relevant information in any of the " ++
          toString docIds.length ++ " documents."
        some { answer := ans, responseType := "multi_doc_fallback_not_found", sources := [] }
      else
        let sources := allResults.foldl (fun acc r => acc ++ r.sources) []
        match env.llm with
        | some invoke =>
          let synthesisParts := allResults.map fun r =>
            "From " ++ r.filename ++ ": " ++ r.answer
          let prompt := multiDocSynthesisPrompt question docIds.length
            (joinStrings "\n\n" synthesisParts)
          let answer :=
            match invoke prompt with
            | some a => a
            | none => "Found information in " ++ toString allResults.length ++
                " documents but couldn\x27t synthesize the results."
          some { answer := answer, responseType := "multi_document_fallback",
                 sources := sources }
        | none =>
          let combined := allResults.foldl
            (fun acc r => acc ++ "**" ++ r.filename ++ "**: " ++ r.answer ++ "\n\n")
            ("Found information in " ++ toString allResults.length ++ " documents:\n\n")
          some { answer := combined, responseType := "multi_document_simple",
                 sources := sources }

/-! ## Document ingestion (`upload_pdf`, success path)

Extracted page texts and chunking are the work of external collaborators
(`pypdf`, the text splitter); the model takes the resulting `chunks` and
`pages` as inputs.  Both `build_index` and `create_simple_faiss_index`
embed each chunk into exactly one vector (the model instantiates the
deterministic embedder; the Vertex variant is also 1:1), and the stores
and the citation metadata are populated together. -/

/-- The store updates of a successful upload (`DOC_TEXT`, `DOC_INDEX`,
`DOC_METADATA`, then `CitationTracker.add_chunk_metadata`); the saved PDF
path (`DOC_FILES`) and disk persistence are elided. -/
def ingestDocument (st : AppState) (docId : String) (chunks pages : List String)
    (filename uploadTime : String) (fileSizeKb : ℚ) : AppState :=
  let index := createSimpleFaissIndex chunks
  let st1 := { st with
    docText := Function.update st.docText docId (some chunks),
    docIndex := Function.update st.docIndex docId (some index),
    docMetadata := Function.update st.docMetadata docId
      (some ⟨filename, pages.length, uploadTime, fileSizeKb⟩) }
  CitationTracker.addChunkMetadata st1 docId chunks pages

/-- The document-store invariant of spec section 3:
`len(chunks) == index.vector_count == len(chunk_metadata)`. -/
def docInvariant (st : AppState) (docId : String) : Prop :=
  ((st.docText docId).getD []).length = ((st.docIndex docId).getD []).length ∧
  ((st.docText docId).getD []).length = ((st.chunkMetadata docId).getD []).length

instance (st : AppState) (docId : String) : Decidable (docInvariant st docId) :=
  inferInstanceAs (Decidable (_ ∧ _))

/-! ## The chat endpoint slices the claims are about -/

/-- The keys of `CLASSIFICATION_CATEGORIES`: every classification the
endpoint works with carries one of these five categories (the LLM path
validates membership, the rule-based fallback only returns them). -/
def classificationCategories : List String :=
  ["PDF_CONTENT", "PDF_META", "GENERAL", "PERSONAL", "CONVERSATIONAL"]

/-- The fixed classification used for the chat cache lookup:
`{"category": "CACHED", "confidence": 1.0}`. -/
def cachedPreview : Classification := ⟨"CACHED", 1⟩

/-- One chat request as seen by the cache logic: the raw question, the
target (`req.doc_id or req.collection_id`), the classification the
classifier produced for it, the response the handlers produced
(`response_type` inspected by the no-cache rule), and the wall-clock
time. -/
structure ChatCacheReq where
  question : String
  target : String
  classification : Classification
  response : Response
  now : ℚ
  enableCache : Bool
deriving Repr

/-- The cache interaction of one `chat` request (source lines 1512–1521
and 1587–1589): a lookup keyed with the fixed `CACHED` preview
classification, an early return on a hit, and a store keyed with the
actual classification unless the response type is conversational or
personal.  Returns whether the request was answered from the cache. -/
def chatCacheStep (st : AppState) (r : ChatCacheReq) : Bool × AppState :=
  let question := strTrim r.question
  let lookup :=
    if r.enableCache then
      ResponseCache.getCachedResponse st question r.target cachedPreview r.now
    else (none, st)
  match lookup with
  | (some _, st1) => (true, st1)
  | (none, st1) =>
    let st2 :=
      if r.enableCache ∧
          r.response.responseType ∉ ["conversational", "personal"] then
        ResponseCache.cacheResponse st1 question r.target r.classification
          r.response r.now
      else st1
    (false, st2)

/-- Run a sequence of chat requests, reporting whether any of them was
answered from the response cache. -/
def chatCacheRunAux : AppState → List ChatCacheReq → Bool
  | _, [] => false
  | st, r :: rest =>
    let (hit, st1) := chatCacheStep st r
    hit || chatCacheRunAux st1 rest

/-- Whether any request of the run, started from the empty stores, is
answered from the response cache. -/
def chatCacheAnyHit (reqs : List ChatCacheReq) : Bool :=
  chatCacheRunAux emptyState reqs

/-- All cache-key preimages a run can touch: for each request, the lookup
key data (under the `CACHED` preview) and the store key data (under the
actual classification). -/
def chatKeyStrings (reqs : List ChatCacheReq) : List String :=
  reqs.flatMap fun r =>
    [ResponseCache.cacheKeyData (strTrim r.question) r.target cachedPreview,
     ResponseCache.cacheKeyData (strTrim r.question) r.target r.classification]

/-- The routing slice of one `chat` request (source lines 1536–1542): the
current question is appended to the session history with the current
category as its `response_type` before follow-up detection runs, and the
router is consulted with the resulting follow-up info. -/
def chatRoutingSlice (st : AppState) (sessionId question : String)
    (classification : Classification) :
    AdvancedRouter.RoutingDecision × FollowUpInfo :=
  let st1 := ConversationManager.addToHistory st sessionId question
    classification.category
  let fui := ConversationManager.detectFollowUp st1 question sessionId
  (AdvancedRouter.shouldUseHybridResponse classification question fui, fui)

/-! ## Verified properties -/

/-- A state with two documents (one and two chunks) whose combined
collection index is built by `_build_collection_index` over the member
documents in the given order. -/
def twoDocState : AppState :=
  { emptyState with
    docText := fun k =>
      if k = "A" then some ["a0"] else if k = "B" then some ["b0", "b1"] else none,
    docIndex := fun k =>
      if k = "A" then some [[0]] else if k = "B" then some [[10], [20]] else none }

/-- The two-document state with the combined index for collection `"c"`. -/
def twoDocCollectionState : AppState :=
  MultiDocumentManager.buildCollectionIndex twoDocState "c" ["A", "B"]

/-- A state holding one document and a collection over it whose combined
index is present in the cross-document store. -/
def combinedIndexState : AppState :=
  { emptyState with
    docText := Function.update emptyState.docText "A" (some ["a0"]),
    docIndex := Function.update emptyState.docIndex "A" (some [[0]]),
    collections := Function.update emptyState.collections "c0" (some ["A"]),
    crossDoc := fun k =>
      if k = "c0" then some (.idx [[0]])
      else if k = "c0_map" then some (.map ["A"]) else none }

/-- C1: for a collection whose combined cross-document index exists, a
successful question embedding (here the always-succeeding fallback
embedding profile, as under `USE_FAKE`) makes
`handle_multi_document_content` return `None` instead of a response dict:
the search-and-respond block is indented inside the `except` handler of
the embedding `try` and is skipped when no exception is raised. -/
theorem multi_doc_combined_index_returns_none :
    handleMultiDocumentContent combinedIndexState
      ⟨fun _ => some [0], none⟩ "What do the documents say?" "c0" = none := by
  rfl

/-- C2: searching the two-document collection with query `[10]` and `k=1`
hits combined position 1, owned by document `"B"` at local chunk index 0
(chunk `"b0"`); the source instead reads the chunk of `"B"` at the combined
position 1 and returns `"b1"`.  The spec-side resolution
(`specLocalChunk`) and the code disagree at this input. -/
theorem search_collection_uses_global_position :
    MultiDocumentManager.searchAcrossDocuments twoDocCollectionState "c" [10] 1 =
      [⟨"B", "b1", 0, 1⟩] ∧
    specLocalChunk twoDocCollectionState "c" 1 = some "b0" ∧
    ("b1" : String) ≠ "b0" := by
  have h0 : distSq [10] [0] = 100 := by norm_num [distSq]
  have h1 : distSq [10] [10] = 0 := by norm_num [distSq]
  have h2 : distSq [10] [20] = 100 := by norm_num [distSq]
  have hknn : knnSearch [[0], [10], [20]] [10] 1 = [(1, 0)] := by
    rw [knnSearch, show ([[0], [10], [20]] : List (List ℚ)).map (distSq [10]) =
      [distSq [10] [0], distSq [10] [10], distSq [10] [20]] from rfl, h0, h1, h2]
    decide
  refine ⟨?_, rfl, by decide⟩
  have hidx : twoDocCollectionState.crossDoc "c" = some (.idx [[0], [10], [20]]) := rfl
  have hmap : twoDocCollectionState.crossDoc ("c" ++ "_map") =
      some (.map ["A", "B", "B"]) := rfl
  simp only [MultiDocumentManager.searchAcrossDocuments, hidx, hmap, hknn]
  rfl

/-- C3: under a language model whose synthesis call fails
deterministically, `_synthesize_hybrid_responses` never returns: the
source retries by calling itself recursively with unchanged arguments, so
every finite amount of fuel is exhausted and the concatenation fallback is
never reached. -/
theorem hybrid_synthesis_diverges_on_persistent_failure :
    ∀ (fuel : Nat) (responses : List AdvancedRouter.HandlerResp)
      (question docFilename : String),
      AdvancedRouter.synthesizeHybrid fuel (some fun _ => none)
        responses question docFilename = none := by
  intro fuel
  induction fuel with
  | zero => intro rs q f; rfl
  | succ n ih => intro rs q f; simpa [AdvancedRouter.synthesizeHybrid] using ih rs q f

/-- C5 (counterexample): creating collections named `"collection"` over
the same member set `{a, b}` supplied in the two different orders yields
two different collection ids, because the source hashes the ids in the
given order without sorting. -/
theorem collection_id_order_sensitive :
    (MultiDocumentManager.createDocumentCollection emptyState
        "collection" ["a", "b"]).2 ≠
      (MultiDocumentManager.createDocumentCollection emptyState
        "collection" ["b", "a"]).2 := by
  decide

/-- C5 (amended): the collection id is the hash of the name together with
the member ids in the order supplied (not sorted): it does not depend on
the store state, and creating a collection twice with identical name and
identical ordered member ids yields the same id both times. -/
theorem collection_id_depends_on_ordered_ids (st st2 : AppState)
    (name : String) (ids : List String) :
    (MultiDocumentManager.createDocumentCollection st name ids).2 =
      (MultiDocumentManager.createDocumentCollection st2 name ids).2 ∧
    (MultiDocumentManager.createDocumentCollection
        (MultiDocumentManager.createDocumentCollection st name ids).1 name ids).2 =
      (MultiDocumentManager.createDocumentCollection st name ids).2 :=
  ⟨rfl, rfl⟩

/-- C6: a classification at or above the HIGH confidence threshold (0.8)
always routes to a single handler carrying the classified category,
whatever the question text or follow-up state. -/
theorem high_confidence_routes_single_handler (cls : Classification)
    (question : String) (fui : FollowUpInfo)
    (h : AdvancedRouter.thresholdHigh ≤ cls.confidence) :
    AdvancedRouter.shouldUseHybridResponse cls question fui =
      ⟨false, cls.category, [], "High confidence single classification"⟩ := by
  rw [AdvancedRouter.shouldUseHybridResponse]
  simp [h]

/-- Witness for C6 at a concrete high-confidence classification, with a
follow-up of a different category and a trigger phrase in the question. -/
theorem high_confidence_routes_single_handler_witness :
    AdvancedRouter.thresholdHigh ≤ ((9 : ℚ) / 10) ∧
    AdvancedRouter.shouldUseHybridResponse ⟨"PDF_META", 9 / 10⟩
        "what is this document about?" ⟨true, "GENERAL", "earlier question", 3⟩ =
      ⟨false, "PDF_META", [], "High confidence single classification"⟩ :=
  ⟨by norm_num [AdvancedRouter.thresholdHigh],
   high_confidence_routes_single_handler _ _ _
     (by norm_num [AdvancedRouter.thresholdHigh])⟩

theorem chunkMetaLoop_length (pages : List String) (total : Nat) :
    ∀ (cs : List String) (i cp : Nat) (pt : String),
      (CitationTracker.chunkMetaLoop pages total i cp pt cs).length = cs.length := by
  intro cs
  induction cs with
  | nil => intro i cp pt; rfl
  | cons c rest ih =>
    intro i cp pt
    simp only [CitationTracker.chunkMetaLoop, List.length_cons]
    rw [ih]

/-- C4 (amended): a successful ingestion of a document id not yet present
in the citation store establishes
`len(DOC_TEXT[id]) = DOC_INDEX[id].ntotal = len(CHUNK_METADATA[id])`, and
leaves the stores of every other document untouched (so their invariants are
preserved).  Re-ingestion of an id already holding metadata is excluded:
`add_chunk_metadata` appends to the existing list instead of replacing
it, which the counterexample exhibits. -/
theorem ingest_establishes_doc_invariant (st : AppState) (docId : String)
    (chunks pages : List String) (filename uploadTime : String) (sizeKb : ℚ)
    (hfresh : st.chunkMetadata docId = none) :
    docInvariant (ingestDocument st docId chunks pages filename uploadTime sizeKb)
      docId ∧
    ∀ d, d ≠ docId →
      (ingestDocument st docId chunks pages filename uploadTime sizeKb).docText d =
          st.docText d ∧
      (ingestDocument st docId chunks pages filename uploadTime sizeKb).docIndex d =
          st.docIndex d ∧
      (ingestDocument st docId chunks pages filename uploadTime
          sizeKb).chunkMetadata d = st.chunkMetadata d := by
  constructor
  · unfold docInvariant ingestDocument CitationTracker.addChunkMetadata
    simp only [Function.update_same, hfresh, Option.getD_none, Option.getD_some,
      List.nil_append, chunkMetaLoop_length, createSimpleFaissIndex,
      FallbackEmbedder.embedDocuments, List.length_map]
    exact ⟨trivial, trivial⟩
  · intro d hd
    unfold ingestDocument CitationTracker.addChunkMetadata
    simp only [Function.update_noteq hd]
    exact ⟨trivial, trivial, trivial⟩

/-- Witness for C4 at a concrete fresh ingestion. -/
theorem ingest_establishes_doc_invariant_witness :
    emptyState.chunkMetadata "d" = none ∧
    docInvariant (ingestDocument emptyState "d" ["alpha beta"] ["alpha beta"]
      "f.pdf" "2025-01-01" 1) "d" :=
  ⟨rfl, (ingest_establishes_doc_invariant emptyState "d" ["alpha beta"]
    ["alpha beta"] "f.pdf" "2025-01-01" 1 rfl).1⟩

/-- C4 (counterexample): ingesting the same document id twice leaves one
chunk in `DOC_TEXT` but two metadata entries in `CHUNK_METADATA`
(`add_chunk_metadata` appends), violating the claimed invariant after the
re-ingestion. -/
theorem reingest_breaks_doc_invariant :
    (((ingestDocument (ingestDocument emptyState "d" ["alpha"] [] "f.pdf" "t" 1)
        "d" ["alpha"] [] "f.pdf" "t" 1).docText "d").getD []).length = 1 ∧
    (((ingestDocument (ingestDocument emptyState "d" ["alpha"] [] "f.pdf" "t" 1)
        "d" ["alpha"] [] "f.pdf" "t" 1).chunkMetadata "d").getD []).length = 2 ∧
    ¬ docInvariant (ingestDocument
        (ingestDocument emptyState "d" ["alpha"] [] "f.pdf" "t" 1)
        "d" ["alpha"] [] "f.pdf" "t" 1) "d" := by
  refine ⟨rfl, rfl, ?_⟩
  intro h
  exact absurd (h.1.symm.trans h.2) (by decide)

theorem find_map_replace (c : List (String × CacheEntry)) (k : String)
    (e : CacheEntry) (h : (c.any fun p => decide (p.1 = k)) = true) :
    ((c.map fun p => if p.1 = k then (k, e) else p).find?
      fun p => decide (p.1 = k)) = some (k, e) := by
  induction c with
  | nil => simp at h
  | cons p ps ih =>
    by_cases hp : p.1 = k
    · simp [List.find?_cons, hp]
    · have h2 : (ps.any fun p => decide (p.1 = k)) = true := by
        simpa [hp] using h
      have hd : decide (p.1 = k) = false := decide_eq_false hp
      simp only [List.map_cons, if_neg hp, List.find?_cons, hd]
      exact ih h2

theorem find_append_new (c : List (String × CacheEntry)) (k : String)
    (e : CacheEntry) (h : (c.any fun p => decide (p.1 = k)) = false) :
    ((c ++ [(k, e)]).find? fun p => decide (p.1 = k)) = some (k, e) := by
  induction c with
  | nil => simp [List.find?_cons]
  | cons p ps ih =>
    have hp : ¬ p.1 = k := by
      intro hk
      simp [hk] at h
    have h2 : (ps.any fun p => decide (p.1 = k)) = false := by
      simpa [hp] using h
    have hd : decide (p.1 = k) = false := decide_eq_false hp
    simp only [List.cons_append, List.find?_cons, hd]
    exact ih h2

theorem lookup_insert_self (c : List (String × CacheEntry)) (k : String)
    (e : CacheEntry) :
    ResponseCache.lookupCache (ResponseCache.insertCache c k e) k = some e := by
  rw [ResponseCache.insertCache, ResponseCache.lookupCache]
  by_cases h : (c.any fun p => decide (p.1 = k)) = true
  · rw [if_pos h, find_map_replace c k e h]
    rfl
  · have hf : (c.any fun p => decide (p.1 = k)) = false := by
      cases hv : c.any fun p => decide (p.1 = k)
      · rfl
      · exact absurd hv h
    rw [if_neg h, find_append_new c k e hf]
    rfl

theorem lookup_erase_self (c : List (String × CacheEntry)) (k : String) :
    ResponseCache.lookupCache (ResponseCache.eraseCache c k) k = none := by
  rw [ResponseCache.lookupCache, ResponseCache.eraseCache]
  induction c with
  | nil => rfl
  | cons p ps ih =>
    by_cases hp : p.1 = k
    · simpa [hp] using ih
    · simpa [List.filter_cons, hp, List.find?_cons] using ih

theorem insert_length_le (c : List (String × CacheEntry)) (k : String)
    (e : CacheEntry) :
    (ResponseCache.insertCache c k e).length ≤ c.length + 1 := by
  rw [ResponseCache.insertCache]
  by_cases h : (c.any fun p => decide (p.1 = k)) = true
  · rw [if_pos h]; simp
  · rw [if_neg h]; simp

theorem cacheResponse_cache (st : AppState) (q d : String)
    (cls : Classification) (resp : Response) (t : ℚ)
    (hcap : st.responseCache.length < 1000) :
    (ResponseCache.cacheResponse st q d cls resp t).responseCache =
      ResponseCache.insertCache st.responseCache
        (ResponseCache.generateCacheKey q d cls) ⟨resp, t⟩ := by
  rw [ResponseCache.cacheResponse]
  have hle := insert_length_le st.responseCache
    (ResponseCache.generateCacheKey q d cls) ⟨resp, t⟩
  simp only []
  rw [if_neg (by omega)]

/-- C7: immediately after `cache_response`, a `get_cached_response` with
the identical (question, target, category) returns the stored response as
long as its age is strictly below the 3600-second TTL and leaves the
cache unchanged; once the age reaches the TTL, the same lookup misses and
deletes the entry, so a subsequent lookup of the key finds nothing.  The
capacity hypothesis keeps the store below the 1000-entry eviction
threshold (the eviction sweep could otherwise remove unrelated oldest
entries; it never removes the just-inserted newest one in a
monotone-clock run, but that is not needed here). -/
theorem cache_hit_before_ttl_miss_after (st : AppState) (q d : String)
    (cls : Classification) (resp : Response) (t t1 t2 : ℚ)
    (hcap : st.responseCache.length < 1000)
    (h1 : t1 - t < 3600) (h2 : 3600 ≤ t2 - t) :
    (ResponseCache.getCachedResponse (ResponseCache.cacheResponse st q d cls resp t)
        q d cls t1 =
      (some resp, ResponseCache.cacheResponse st q d cls resp t)) ∧
    (ResponseCache.getCachedResponse (ResponseCache.cacheResponse st q d cls resp t)
        q d cls t2).1 = none ∧
    ResponseCache.lookupCache
      (ResponseCache.getCachedResponse (ResponseCache.cacheResponse st q d cls resp t)
        q d cls t2).2.responseCache
      (ResponseCache.generateCacheKey q d cls) = none := by
  have hcache := cacheResponse_cache st q d cls resp t hcap
  have hlook : ResponseCache.lookupCache
      (ResponseCache.cacheResponse st q d cls resp t).responseCache
      (ResponseCache.generateCacheKey q d cls) = some ⟨resp, t⟩ := by
    rw [hcache]; exact lookup_insert_self _ _ _
  refine ⟨?_, ?_, ?_⟩
  · rw [ResponseCache.getCachedResponse]
    simp only [hlook]
    rw [if_pos h1]
  · rw [ResponseCache.getCachedResponse]
    simp only [hlook]
    rw [if_neg (by linarith)]
  · rw [ResponseCache.getCachedResponse]
    simp only [hlook]
    rw [if_neg (by linarith)]
    simp only []
    rw [hcache]
    exact lookup_erase_self _ _

/-- Witness for C7: put at time 0, hit at time 10, miss-and-delete at
time 4000. -/
theorem cache_hit_before_ttl_miss_after_witness :
    emptyState.responseCache.length < 1000 ∧
    ((10 : ℚ) - 0 < 3600) ∧ ((3600 : ℚ) ≤ 4000 - 0) ∧
    (ResponseCache.getCachedResponse
        (ResponseCache.cacheResponse emptyState "Hello" "doc1" ⟨"GENERAL", 1 / 2⟩
          ⟨"hi", "general", [], []⟩ 0) "Hello" "doc1" ⟨"GENERAL", 1 / 2⟩ 10 =
      (some ⟨"hi", "general", [], []⟩,
        ResponseCache.cacheResponse emptyState "Hello" "doc1" ⟨"GENERAL", 1 / 2⟩
          ⟨"hi", "general", [], []⟩ 0)) ∧
    (ResponseCache.getCachedResponse
        (ResponseCache.cacheResponse emptyState "Hello" "doc1" ⟨"GENERAL", 1 / 2⟩
          ⟨"hi", "general", [], []⟩ 0) "Hello" "doc1" ⟨"GENERAL", 1 / 2⟩ 4000).1 =
      none ∧
    ResponseCache.lookupCache
      (ResponseCache.getCachedResponse
        (ResponseCache.cacheResponse emptyState "Hello" "doc1" ⟨"GENERAL", 1 / 2⟩
          ⟨"hi", "general", [], []⟩ 0) "Hello" "doc1" ⟨"GENERAL", 1 / 2⟩
        4000).2.responseCache
      (ResponseCache.generateCacheKey "Hello" "doc1" ⟨"GENERAL", 1 / 2⟩) = none :=
  ⟨by decide, by norm_num, by norm_num,
    (cache_hit_before_ttl_miss_after emptyState "Hello" "doc1" ⟨"GENERAL", 1 / 2⟩
      ⟨"hi", "general", [], []⟩ 0 10 4000 (by decide) (by norm_num)
      (by norm_num)).1,
    (cache_hit_before_ttl_miss_after emptyState "Hello" "doc1" ⟨"GENERAL", 1 / 2⟩
      ⟨"hi", "general", [], []⟩ 0 10 4000 (by decide) (by norm_num)
      (by norm_num)).2.1,
    (cache_hit_before_ttl_miss_after emptyState "Hello" "doc1" ⟨"GENERAL", 1 / 2⟩
      ⟨"hi", "general", [], []⟩ 0 10 4000 (by decide) (by norm_num)
      (by norm_num)).2.2⟩

/-- C8 (amended): searching the index built over the deterministic
embeddings of a chunk list with the embedding of `chunks[i]` and `k = 1`
returns, at distance 0, the earliest position whose embedding equals that
of `chunks[i]`; this is `i` itself whenever no earlier chunk shares the
embedding (in particular for pairwise-distinct embeddings).  A duplicate
of `chunks[i]` at an earlier position retargets the hit, as the
counterexample shows. -/
theorem self_retrieval_earliest_equal_embedding (chunks : List String)
    (i : Nat) (hi : i < chunks.length) :
    knnSearch (createSimpleFaissIndex chunks)
        (FallbackEmbedder.embedQuery (chunks.get ⟨i, hi⟩)) 1 =
      [((createSimpleFaissIndex chunks).findIdx
          (fun v => decide (v = FallbackEmbedder.embedQuery (chunks.get ⟨i, hi⟩))),
        0)] ∧
    ((∀ j, j < i →
        (createSimpleFaissIndex chunks).getD j [] ≠
          FallbackEmbedder.embedQuery (chunks.get ⟨i, hi⟩)) →
      (createSimpleFaissIndex chunks).findIdx
          (fun v => decide (v = FallbackEmbedder.embedQuery (chunks.get ⟨i, hi⟩))) =
        i) := by
  have hq : FallbackEmbedder.embedQuery (chunks.get ⟨i, hi⟩) ∈
      createSimpleFaissIndex chunks := by
    rw [createSimpleFaissIndex, FallbackEmbedder.embedDocuments]
    exact List.mem_map.mpr ⟨chunks.get ⟨i, hi⟩, List.get_mem chunks _ hi, rfl⟩
  have hlen : ∀ v ∈ createSimpleFaissIndex chunks,
      v.length = (FallbackEmbedder.embedQuery (chunks.get ⟨i, hi⟩)).length := by
    intro v hv
    rw [createSimpleFaissIndex, FallbackEmbedder.embedDocuments] at hv
    obtain ⟨c, -, rfl⟩ := List.mem_map.mp hv
    rw [fallbackVec_length]
    exact (fallbackVec_length _).symm
  refine ⟨knnSearch_top1 _ _ hlen hq, ?_⟩
  intro hearly
  have hex : ∃ v ∈ createSimpleFaissIndex chunks,
      (fun v => decide (v = FallbackEmbedder.embedQuery (chunks.get ⟨i, hi⟩))) v =
        true := ⟨_, hq, by simp⟩
  have hjlt := List.findIdx_lt_length_of_exists hex
  have hilt : i < (createSimpleFaissIndex chunks).length := by
    simpa only [createSimpleFaissIndex, FallbackEmbedder.embedDocuments,
      List.length_map] using hi
  have hvi : (createSimpleFaissIndex chunks)[i] =
      FallbackEmbedder.embedQuery (chunks.get ⟨i, hi⟩) := by
    simp only [createSimpleFaissIndex, FallbackEmbedder.embedDocuments,
      List.getElem_map, List.get_eq_getElem]
    rfl
  apply Nat.le_antisymm
  · by_contra hlt
    have hnp := @List.not_of_lt_findIdx _
      (fun v => decide (v = FallbackEmbedder.embedQuery (chunks.get ⟨i, hi⟩)))
      (createSimpleFaissIndex chunks) _ (Nat.lt_of_not_le hlt)
    rw [hvi] at hnp
    simp at hnp
  · by_contra hlt
    have hfi := hearly _ (Nat.lt_of_not_le hlt)
    have hget := @List.findIdx_getElem _
      (fun v => decide (v = FallbackEmbedder.embedQuery (chunks.get ⟨i, hi⟩)))
      (createSimpleFaissIndex chunks) hjlt
    rw [List.getD_eq_getElem _ _ hjlt] at hfi
    simp only [decide_eq_true_eq] at hget
    exact hfi hget

/-- Witness for C8 on a one-chunk list at position 0. -/
theorem self_retrieval_earliest_equal_embedding_witness :
    0 < (["alpha"] : List String).length ∧
    knnSearch (createSimpleFaissIndex ["alpha"])
        (FallbackEmbedder.embedQuery ((["alpha"] : List String).get
          ⟨0, by decide⟩)) 1 =
      [((createSimpleFaissIndex ["alpha"]).findIdx
          (fun v => decide (v = FallbackEmbedder.embedQuery
            ((["alpha"] : List String).get ⟨0, by decide⟩))), 0)] ∧
    (createSimpleFaissIndex ["alpha"]).findIdx
        (fun v => decide (v = FallbackEmbedder.embedQuery
          ((["alpha"] : List String).get ⟨0, by decide⟩))) = 0 :=
  ⟨by decide,
   (self_retrieval_earliest_equal_embedding ["alpha"] 0 (by decide)).1,
   (self_retrieval_earliest_equal_embedding ["alpha"] 0 (by decide)).2
     (fun j hj => absurd hj (Nat.not_lt_zero j))⟩

/-- C8 (counterexample): over the duplicate chunk list `["alpha",
"alpha"]`, searching with the embedding of `chunks[1]` returns position 0
(the earliest duplicate) rather than position 1. -/
theorem self_retrieval_duplicate_counterexample :
    knnSearch (createSimpleFaissIndex ["alpha", "alpha"])
        (FallbackEmbedder.embedQuery "alpha") 1 = [(0, 0)] ∧
    [((0 : Nat), (0 : ℚ))] ≠ [(1, 0)] := by
  constructor
  · have hq : FallbackEmbedder.embedQuery "alpha" ∈
        createSimpleFaissIndex ["alpha", "alpha"] := by
      rw [createSimpleFaissIndex, FallbackEmbedder.embedDocuments]
      exact List.mem_map.mpr ⟨"alpha", by simp, rfl⟩
    have hlen : ∀ v ∈ createSimpleFaissIndex ["alpha", "alpha"],
        v.length = (FallbackEmbedder.embedQuery "alpha").length := by
      intro v hv
      rw [createSimpleFaissIndex, FallbackEmbedder.embedDocuments] at hv
      obtain ⟨c, -, rfl⟩ := List.mem_map.mp hv
      rw [fallbackVec_length]
      exact (fallbackVec_length _).symm
    have h := knnSearch_top1 _ _ hlen hq
    have hfind : (createSimpleFaissIndex ["alpha", "alpha"]).findIdx
        (fun v => decide (v = FallbackEmbedder.embedQuery "alpha")) = 0 := by
      rw [createSimpleFaissIndex, FallbackEmbedder.embedDocuments]
      simp [List.findIdx_cons, FallbackEmbedder.embedQuery]
    rw [hfind] at h
    exact h
  · decide

theorem addToHistory_last (st : AppState) (sid q cat : String) :
    ∃ hist2 : List Turn,
      (ConversationManager.addToHistory st sid q cat).conversationMemory sid =
        some hist2 ∧ hist2.isEmpty = false ∧
        hist2.getLast? = some ⟨q, cat⟩ := by
  unfold ConversationManager.addToHistory
  simp only [Function.update_same]
  by_cases h :
      (((st.conversationMemory sid).getD []) ++ [(⟨q, cat⟩ : Turn)]).length > 10
  · rw [if_pos h]
    refine ⟨_, rfl, ?_, ?_⟩
    · rw [List.isEmpty_eq_false]
      intro hnil
      have hlen := congrArg List.length hnil
      rw [List.length_drop] at hlen
      simp at hlen
      omega
    · rw [List.getLast?_drop, if_neg (by omega), List.getLast?_concat]
  · rw [if_neg h]
    refine ⟨_, rfl, ?_, List.getLast?_concat _⟩
    rw [List.isEmpty_eq_false]
    simp

theorem category_upper_replace (c : String)
    (hc : c ∈ classificationCategories) :
    strReplace (strUpper c) "_" "_" = c := by
  simp only [classificationCategories, List.mem_cons, List.mem_singleton,
    List.not_mem_nil, or_false] at hc
  rcases hc with rfl | rfl | rfl | rfl | rfl <;> decide

theorem router_ignores_matching_follow_up (cls : Classification) (q : String)
    (fui : FollowUpInfo)
    (h : fui.isFollowUp = true →
      strReplace (strUpper fui.previousType) "_" "_" = cls.category) :
    AdvancedRouter.shouldUseHybridResponse cls q fui =
      AdvancedRouter.shouldUseHybridResponse cls q ⟨false, "", "", 0⟩ := by
  have hc2 : ¬(fui.isFollowUp = true ∧
      cls.category ≠ strReplace (strUpper fui.previousType) "_" "_") := by
    rintro ⟨hf, hne⟩
    exact hne (h hf).symm
  have hc2b : ¬((false : Bool) = true ∧
      cls.category ≠ strReplace (strUpper "") "_" "_") := by
    rintro ⟨hf, -⟩
    exact Bool.false_ne_true hf
  simp only [AdvancedRouter.shouldUseHybridResponse]
  rw [if_neg hc2, if_neg hc2b]

/-- C10: `chat` appends the current question to the session history (with
the current classification category as its `response_type`) before
follow-up detection runs, so the previous turn the detector sees is the
current turn itself: whenever a follow-up is flagged, its previous
category equals the current category, and the router decides exactly as
it would with no follow-up at all — the follow-up hybrid branch is never
taken on a chat request. -/
theorem follow_up_sees_current_turn (st : AppState)
    (sessionId question : String) (cls : Classification)
    (hcat : cls.category ∈ classificationCategories) :
    ((chatRoutingSlice st sessionId question cls).2.isFollowUp = true →
      (chatRoutingSlice st sessionId question cls).2.previousType =
        cls.category) ∧
    (chatRoutingSlice st sessionId question cls).1 =
      AdvancedRouter.shouldUseHybridResponse cls question ⟨false, "", "", 0⟩ := by
  obtain ⟨hist2, hmem, hne, hlast⟩ :=
    addToHistory_last st sessionId question cls.category
  have hdet : ConversationManager.detectFollowUp
      (ConversationManager.addToHistory st sessionId question cls.category)
      question sessionId =
      (if ConversationManager.followUpMatch (strTrim (strLower question)) then
        (⟨true, cls.category, question, hist2.length⟩ : FollowUpInfo)
      else ⟨false, "", "", 0⟩) := by
    rw [ConversationManager.detectFollowUp, hmem]
    simp only [hne, Bool.false_eq_true, if_false, hlast, Option.getD_some]
  constructor
  · intro hf
    have : (chatRoutingSlice st sessionId question cls).2 =
        ConversationManager.detectFollowUp
          (ConversationManager.addToHistory st sessionId question cls.category)
          question sessionId := rfl
    rw [this, hdet] at hf ⊢
    by_cases hm : ConversationManager.followUpMatch (strTrim (strLower question))
    · rw [if_pos hm]
    · rw [if_neg hm] at hf
      exact absurd hf (by simp)
  · have : (chatRoutingSlice st sessionId question cls).1 =
        AdvancedRouter.shouldUseHybridResponse cls question
          (ConversationManager.detectFollowUp
            (ConversationManager.addToHistory st sessionId question cls.category)
            question sessionId) := rfl
    rw [this, hdet]
    by_cases hm : ConversationManager.followUpMatch (strTrim (strLower question))
    · rw [if_pos hm]
      exact router_ignores_matching_follow_up cls question _
        (fun _ => category_upper_replace cls.category hcat)
    · rw [if_neg hm]

/-- Witness for C10: a question carrying a follow-up trigger phrase on a
medium-confidence classification; the chat slice still decides exactly as
with no follow-up. -/
theorem follow_up_sees_current_turn_witness :
    ("PDF_CONTENT" ∈ classificationCategories) ∧
    ((chatRoutingSlice emptyState "s" "tell me more about this" (⟨"PDF_CONTENT", 1 / 2⟩ : Classification)).2.isFollowUp = true →
      (chatRoutingSlice emptyState "s" "tell me more about this" (⟨"PDF_CONTENT", 1 / 2⟩ : Classification)).2.previousType = "PDF_CONTENT") ∧
    (chatRoutingSlice emptyState "s" "tell me more about this" (⟨"PDF_CONTENT", 1 / 2⟩ : Classification)).1 =
      AdvancedRouter.shouldUseHybridResponse ⟨"PDF_CONTENT", 1 / 2⟩
        "tell me more about this" ⟨false, "", "", 0⟩ :=
  ⟨by decide,
   (follow_up_sees_current_turn emptyState "s" "tell me more about this"
     ⟨"PDF_CONTENT", 1 / 2⟩ (by decide)).1,
   (follow_up_sees_current_turn emptyState "s" "tell me more about this"
     ⟨"PDF_CONTENT", 1 / 2⟩ (by decide)).2⟩

theorem append_data_getLast (a b : String) (hb : b.data ≠ []) :
    (a ++ b).data.getLast? = b.data.getLast? := by
  rw [String.data_append, List.getLast?_append]
  cases hx : b.data.getLast? with
  | none => exact absurd (List.getLast?_eq_none_iff.mp hx) hb
  | some x => rfl

theorem cacheKeyData_getLast (q d : String) (cls : Classification)
    (h : cls.category.data ≠ []) :
    (ResponseCache.cacheKeyData q d cls).data.getLast? =
      cls.category.data.getLast? := by
  rw [ResponseCache.cacheKeyData]
  exact append_data_getLast _ _ h

theorem cacheKeyData_ne_cached (q d q2 d2 : String) (cls : Classification)
    (hc : cls.category ∈ classificationCategories) :
    ResponseCache.cacheKeyData q d cls ≠
      ResponseCache.cacheKeyData q2 d2 cachedPreview := by
  intro h
  simp only [classificationCategories, List.mem_cons, List.mem_singleton,
    List.not_mem_nil, or_false] at hc
  have h2 := cacheKeyData_getLast q2 d2 cachedPreview (by decide)
  rcases hc with hcc | hcc | hcc | hcc | hcc <;>
    (have h1 := cacheKeyData_getLast q d cls (by rw [hcc]; decide);
     rw [hcc] at h1; rw [h, h2] at h1; exact absurd h1 (by decide))

/-- The invariant of the response cache under the chat endpoint: every
stored key is the md5 of a key-data string built from the question,
target and actual classification of some request. -/
def cacheInv (reqs : List ChatCacheReq) (c : List (String × CacheEntry)) : Prop :=
  ∀ p ∈ c, ∃ r ∈ reqs, p.1 =
    ResponseCache.generateCacheKey (strTrim r.question) r.target r.classification

theorem cacheInv_filter (reqs : List ChatCacheReq)
    (c : List (String × CacheEntry)) (pred : String × CacheEntry → Bool)
    (hinv : cacheInv reqs c) : cacheInv reqs (c.filter pred) :=
  fun p hp => hinv p (List.mem_filter.mp hp).1

theorem cacheInv_insert (reqs : List ChatCacheReq)
    (c : List (String × CacheEntry)) (e : CacheEntry)
    (hinv : cacheInv reqs c) (r : ChatCacheReq) (hr : r ∈ reqs) :
    cacheInv reqs (ResponseCache.insertCache c
      (ResponseCache.generateCacheKey (strTrim r.question) r.target
        r.classification) e) := by
  intro p hp
  rw [ResponseCache.insertCache] at hp
  by_cases hany : (c.any fun p => decide (p.1 =
      ResponseCache.generateCacheKey (strTrim r.question) r.target
        r.classification)) = true
  · rw [if_pos hany] at hp
    obtain ⟨p0, hp0, hpe⟩ := List.mem_map.mp hp
    by_cases hk : p0.1 = ResponseCache.generateCacheKey (strTrim r.question)
        r.target r.classification
    · rw [if_pos hk] at hpe
      exact ⟨r, hr, by rw [← hpe]⟩
    · rw [if_neg hk] at hpe
      exact hpe ▸ hinv p0 hp0
  · rw [if_neg hany] at hp
    rcases List.mem_append.mp hp with hp1 | hp1
    · exact hinv p hp1
    · rw [List.mem_singleton] at hp1
      exact ⟨r, hr, by rw [hp1]⟩

theorem cacheInv_cacheResponse (reqs : List ChatCacheReq) (st : AppState)
    (resp : Response) (now : ℚ) (hinv : cacheInv reqs st.responseCache)
    (r : ChatCacheReq) (hr : r ∈ reqs) :
    cacheInv reqs (ResponseCache.cacheResponse st (strTrim r.question) r.target
      r.classification resp now).responseCache := by
  rw [ResponseCache.cacheResponse]
  by_cases hev : (ResponseCache.insertCache st.responseCache
      (ResponseCache.generateCacheKey (strTrim r.question) r.target
        r.classification) ⟨resp, now⟩).length > 1000
  · rw [if_pos hev]
    exact cacheInv_filter reqs _ _ (cacheInv_insert reqs _ _ hinv r hr)
  · rw [if_neg hev]
    exact cacheInv_insert reqs _ _ hinv r hr

theorem chat_lookup_misses (reqs : List ChatCacheReq)
    (hcat : ∀ r ∈ reqs, r.classification.category ∈ classificationCategories)
    (hinj : ∀ s1 ∈ chatKeyStrings reqs, ∀ s2 ∈ chatKeyStrings reqs,
      md5Hex s1 = md5Hex s2 → s1 = s2)
    (c : List (String × CacheEntry)) (hinv : cacheInv reqs c)
    (r : ChatCacheReq) (hr : r ∈ reqs) :
    ResponseCache.lookupCache c
      (ResponseCache.generateCacheKey (strTrim r.question) r.target
        cachedPreview) = none := by
  rw [ResponseCache.lookupCache]
  cases hfind : c.find? fun p => decide (p.1 =
      ResponseCache.generateCacheKey (strTrim r.question) r.target
        cachedPreview) with
  | none => rfl
  | some p =>
    exfalso
    have hmem := List.mem_of_find?_eq_some hfind
    have hkey := List.find?_some hfind
    rw [decide_eq_true_eq] at hkey
    obtain ⟨r0, hr0, hpk⟩ := hinv p hmem
    rw [ResponseCache.generateCacheKey] at hpk hkey
    have hmd := (hpk.symm.trans hkey :
      md5Hex (ResponseCache.cacheKeyData (strTrim r0.question) r0.target
        r0.classification) =
      md5Hex (ResponseCache.cacheKeyData (strTrim r.question) r.target
        cachedPreview))
    have hs1 : ResponseCache.cacheKeyData (strTrim r0.question) r0.target
        r0.classification ∈ chatKeyStrings reqs := by
      rw [chatKeyStrings]
      exact List.mem_flatMap.mpr ⟨r0, hr0, by simp⟩
    have hs2 : ResponseCache.cacheKeyData (strTrim r.question) r.target
        cachedPreview ∈ chatKeyStrings reqs := by
      rw [chatKeyStrings]
      exact List.mem_flatMap.mpr ⟨r, hr, by simp⟩
    exact cacheKeyData_ne_cached _ _ _ _ _ (hcat r0 hr0)
      (hinj _ hs1 _ hs2 hmd)

theorem chatCacheStep_safe (reqs : List ChatCacheReq)
    (hcat : ∀ r ∈ reqs, r.classification.category ∈ classificationCategories)
    (hinj : ∀ s1 ∈ chatKeyStrings reqs, ∀ s2 ∈ chatKeyStrings reqs,
      md5Hex s1 = md5Hex s2 → s1 = s2)
    (st : AppState) (hinv : cacheInv reqs st.responseCache)
    (r : ChatCacheReq) (hr : r ∈ reqs) :
    (chatCacheStep st r).1 = false ∧
    cacheInv reqs (chatCacheStep st r).2.responseCache := by
  have hmiss := chat_lookup_misses reqs hcat hinj st.responseCache hinv r hr
  have hget : ResponseCache.getCachedResponse st (strTrim r.question) r.target
      cachedPreview r.now = (none, st) := by
    rw [ResponseCache.getCachedResponse, hmiss]
  rw [chatCacheStep]
  by_cases he : r.enableCache
  · rw [if_pos he, hget]
    refine ⟨rfl, ?_⟩
    by_cases hs : r.enableCache ∧
        r.response.responseType ∉ ["conversational", "personal"]
    · simp only [if_pos hs]
      exact cacheInv_cacheResponse reqs st r.response r.now hinv r hr
    · simp only [if_neg hs]
      exact hinv
  · rw [if_neg he]
    refine ⟨rfl, ?_⟩
    by_cases hs : r.enableCache ∧
        r.response.responseType ∉ ["conversational", "personal"]
    · simp only [if_pos hs]
      exact cacheInv_cacheResponse reqs st r.response r.now hinv r hr
    · simp only [if_neg hs]
      exact hinv

theorem chatCacheRunAux_false (reqs : List ChatCacheReq)
    (hcat : ∀ r ∈ reqs, r.classification.category ∈ classificationCategories)
    (hinj : ∀ s1 ∈ chatKeyStrings reqs, ∀ s2 ∈ chatKeyStrings reqs,
      md5Hex s1 = md5Hex s2 → s1 = s2) :
    ∀ (rs : List ChatCacheReq), (∀ r ∈ rs, r ∈ reqs) →
      ∀ st : AppState, cacheInv reqs st.responseCache →
        chatCacheRunAux st rs = false := by
  intro rs
  induction rs with
  | nil => intro _ st _; rfl
  | cons r rest ih =>
    intro hsub st hinv
    obtain ⟨hhit, hinv2⟩ := chatCacheStep_safe reqs hcat hinj st hinv r
      (hsub r (List.mem_cons_self r rest))
    show ((chatCacheStep st r).1 ||
      chatCacheRunAux (chatCacheStep st r).2 rest) = false
    rw [hhit, Bool.false_or]
    exact ih (fun x hx => hsub x (List.mem_cons_of_mem r hx)) _ hinv2

/-- C9: the chat endpoint looks the cache up under the fixed category
`"CACHED"` but stores responses under the actual classified
category of the question (one of the five real ones), and no category ends like
`"CACHED"`, so the two key-data strings always differ: provided the md5
digests of the key strings of the run do not collide, no chat request in any
run from the empty stores is ever answered from the response cache — the
early-return cache-hit branch is unreachable. -/
theorem chat_cache_hit_unreachable (reqs : List ChatCacheReq)
    (hcat : ∀ r ∈ reqs, r.classification.category ∈ classificationCategories)
    (hinj : ∀ s1 ∈ chatKeyStrings reqs, ∀ s2 ∈ chatKeyStrings reqs,
      md5Hex s1 = md5Hex s2 → s1 = s2) :
    chatCacheAnyHit reqs = false :=
  chatCacheRunAux_false reqs hcat hinj reqs (fun _ h => h) emptyState
    (fun p hp => absurd hp (List.not_mem_nil p))

/-- A concrete two-request chat run repeating the same question against
the same document — the very scenario response caching was meant to
serve. -/
def sampleChatRun : List ChatCacheReq :=
  [⟨"What is this about?", "doc1", ⟨"PDF_CONTENT", 1 / 2⟩,
    ⟨"an answer", "pdf_content", [], []⟩, 0, true⟩,
   ⟨"What is this about?", "doc1", ⟨"PDF_CONTENT", 1 / 2⟩,
    ⟨"an answer", "pdf_content", [], []⟩, 5, true⟩]

set_option maxRecDepth 10000 in
/-- Witness for C9: on the concrete repeated-question run the digests of
the four key strings are collision-free (computed), and no request is
answered from the cache. -/
theorem chat_cache_hit_unreachable_witness :
    (∀ r ∈ sampleChatRun,
      r.classification.category ∈ classificationCategories) ∧
    (∀ s1 ∈ chatKeyStrings sampleChatRun, ∀ s2 ∈ chatKeyStrings sampleChatRun,
      md5Hex s1 = md5Hex s2 → s1 = s2) ∧
    chatCacheAnyHit sampleChatRun = false :=
  ⟨by decide, by decide,
   chat_cache_hit_unreachable sampleChatRun (by decide) (by decide)⟩
